import Mathlib

/-!
Verification of the ptvsd protocol adapter (`ptvsd/wrapper.py`): identifier
maps, the pydevd socket shim, breakpoint configuration, the suspend/resume
event handlers, and the variables sorter.  Python strings are modelled as
`List Char`; Python dicts as association lists with first-match lookup.
-/

/-- Python strings, modelled as lists of characters. -/
abbrev Str := List Char

/-- Python whitespace characters recognised by `str.strip()`. -/
def isPySpace (c : Char) : Bool :=
  c = ' ' || c = '\t' || c = '\n' || c = '\r' || c = '\x0b' || c = '\x0c'

/-- Python `str.strip()` (no argument): strip whitespace from both ends. -/
def pyStripWs (s : Str) : Str :=
  ((s.dropWhile isPySpace).reverse.dropWhile isPySpace).reverse

/-- Python `str.strip(c)` for a single character: strip `c` from both ends. -/
def pyStripChar (c : Char) (s : Str) : Str :=
  ((s.dropWhile (· = c)).reverse.dropWhile (· = c)).reverse

/-- ASCII lower-casing of one character (Python `str.lower()` on ASCII). -/
def asciiLower (c : Char) : Char :=
  if 'A' ≤ c ∧ c ≤ 'Z' then Char.ofNat (c.toNat + 32) else c

/-- Python `str.lower()` (ASCII fragment, which is all the adapter feeds it). -/
def pyLower (s : Str) : Str := s.map asciiLower

/-- Whether `s` ends with `suf` (Python `str.endswith`). -/
def endsWithL (s suf : Str) : Bool := suf.reverse.isPrefixOf s.reverse

/-- Whether `int(s)` succeeds in Python on an already-stripped string:
an optional sign followed by at least one digit.  (Digit-group underscores
of Python 3.6+ are not modelled; no claim exercises them.) -/
def isPyIntLit (s : Str) : Bool :=
  match s with
  | [] => false
  | c :: rest =>
    if c = '+' || c = '-' then rest ≠ [] && rest.all Char.isDigit
    else (c :: rest).all Char.isDigit

/-- Hexadecimal value of a character, if any. -/
def hexVal (c : Char) : Option Nat :=
  if '0' ≤ c ∧ c ≤ '9' then some (c.toNat - '0'.toNat)
  else if 'a' ≤ c ∧ c ≤ 'f' then some (c.toNat - 'a'.toNat + 10)
  else if 'A' ≤ c ∧ c ≤ 'F' then some (c.toNat - 'A'.toNat + 10)
  else none

/-- `urllib.unquote`: percent-decoding, leaving malformed escapes as-is
(single-byte escapes; multi-byte UTF-8 reassembly is not modelled). -/
def unquoteL : Str → Str
  | [] => []
  | '%' :: a :: b :: rest =>
    match hexVal a, hexVal b with
    | some x, some y => Char.ofNat (16 * x + y) :: unquoteL rest
    | _, _ => '%' :: unquoteL (a :: b :: rest)
  | c :: rest => c :: unquoteL rest

/-- Python `str.replace(pat, rep)`: replace all non-overlapping occurrences,
scanning left to right. -/
def replaceAll (pat rep : Str) : Str → Str
  | [] => []
  | c :: rest =>
    if h : pat ≠ [] ∧ pat.isPrefixOf (c :: rest) then
      rep ++ replaceAll pat rep ((c :: rest).drop pat.length)
    else
      c :: replaceAll pat rep rest
termination_by s => s.length
decreasing_by
  · simp only [List.length_drop, List.length_cons]
    have hpat : 0 < pat.length := List.length_pos.mpr h.1
    omega
  · simp

/-- Decimal digits of a natural number, most significant first. -/
def natDigits (n : Nat) : Str := (Nat.toDigits 10 n)

/-- Rendering of one character inside a Python `repr` string literal
(CPython rules for the ASCII range). -/
def pyReprChar (quote : Char) (c : Char) : Str :=
  if c = '\\' then ['\\', '\\']
  else if c = quote then ['\\', quote]
  else if c = '\t' then ['\\', 't']
  else if c = '\n' then ['\\', 'n']
  else if c = '\r' then ['\\', 'r']
  else if c.toNat < 32 ∨ c.toNat = 127 then
    ['\\', 'x'] ++ [(Nat.toDigits 16 c.toNat).headI, (Nat.toDigits 16 c.toNat).getLastI]
  else [c]

/-- Python `repr` of a string (ASCII fragment): single quotes unless the
string holds a single quote and no double quote. -/
def pyRepr (s : Str) : Str :=
  let quote := if s.contains '\'' ∧ ¬ s.contains '"' then '"' else '\''
  quote :: (s.map (pyReprChar quote)).flatten ++ [quote]

/-- Python-dict lookup on an association list: first binding wins,
`none` models `KeyError`. -/
def dget {α β : Type} [DecidableEq α] : List (α × β) → α → Option β
  | [], _ => none
  | (a, b) :: l, k => if a = k then some b else dget l k

/-- Python-dict assignment: overwrite the first binding in place, or append
a fresh binding at the end (insertion order, as CPython dicts keep). -/
def dset {α β : Type} [DecidableEq α] : List (α × β) → α → β → List (α × β)
  | [], k, v => [(k, v)]
  | (a, b) :: l, k, v => if a = k then (k, v) :: l else (a, b) :: dset l k v

/-- Python-dict deletion: drop the first binding of the key (callers check
presence; `del` on a missing key is modelled at the call sites). -/
def ddel {α β : Type} [DecidableEq α] : List (α × β) → α → List (α × β)
  | [], _ => []
  | (a, b) :: l, k => if a = k then l else (a, b) :: ddel l k

/-- `IDMap` from `wrapper.py`: a bidirectional mapping between VSCode
integer IDs and pydevd-side keys, with a monotone ID counter. -/
structure IDMap (κ : Type) where
  vscode_to_pydevd : List (Nat × κ)
  pydevd_to_vscode : List (κ × Nat)
  next_id : Nat

/-- `IDMap.__init__`: both dicts empty, counter at 1. -/
def IDMap.empty (κ : Type) : IDMap κ := ⟨[], [], 1⟩

/-- `IDMap.pairs()`: the items of the pydevd-to-vscode dict. -/
def IDMap.pairs {κ : Type} (m : IDMap κ) : List (κ × Nat) := m.pydevd_to_vscode

/-- `IDMap.pydevd_ids()`. -/
def IDMap.pydevd_ids {κ : Type} (m : IDMap κ) : List κ :=
  m.pydevd_to_vscode.map Prod.fst

/-- `IDMap.vscode_ids()`. -/
def IDMap.vscode_ids {κ : Type} (m : IDMap κ) : List Nat :=
  m.vscode_to_pydevd.map Prod.fst

/-- `IDMap.add` with a plain (non-callable) pydevd ID: allocate the next
VSCode ID and register the pair in both dicts. -/
def IDMap.add {κ : Type} [DecidableEq κ] (m : IDMap κ) (pydevd_id : κ) :
    Nat × IDMap κ :=
  let vscode_id := m.next_id
  (vscode_id,
    { vscode_to_pydevd := dset m.vscode_to_pydevd vscode_id pydevd_id
      pydevd_to_vscode := dset m.pydevd_to_vscode pydevd_id vscode_id
      next_id := m.next_id + 1 })

/-- `IDMap.add` with a callable: the pydevd ID is computed from the freshly
allocated VSCode ID (used for breakpoints). -/
def IDMap.addF {κ : Type} [DecidableEq κ] (m : IDMap κ) (f : Nat → κ) :
    Nat × IDMap κ :=
  m.add (f m.next_id)

/-- `IDMap.remove(pydevd_id, vscode_id)` with both arguments optional, as in
the source.  `.error st` models a `KeyError` escaping with the map left in
state `st` (the second `del` can fail after the first succeeded). -/
def IDMap.remove {κ : Type} [DecidableEq κ] (m : IDMap κ) :
    Option κ → Option Nat → Except (IDMap κ) (IDMap κ)
  | none, none => .error m
  | none, some v =>
    match dget m.vscode_to_pydevd v with
    | none => .error m
    | some k => .ok ⟨ddel m.vscode_to_pydevd v, ddel m.pydevd_to_vscode k, m.next_id⟩
  | some k, none =>
    match dget m.pydevd_to_vscode k with
    | none => .error m
    | some v => .ok ⟨ddel m.vscode_to_pydevd v, ddel m.pydevd_to_vscode k, m.next_id⟩
  | some k, some v =>
    match dget m.vscode_to_pydevd v with
    | none => .error m
    | some _ =>
      let m1 : IDMap κ := ⟨ddel m.vscode_to_pydevd v, m.pydevd_to_vscode, m.next_id⟩
      match dget m1.pydevd_to_vscode k with
      | none => .error m1
      | some _ => .ok ⟨m1.vscode_to_pydevd, ddel m1.pydevd_to_vscode k, m.next_id⟩

/-- The state after `remove`, whether or not a `KeyError` escaped. -/
def IDMap.removeState {κ : Type} [DecidableEq κ] (m : IDMap κ)
    (pk : Option κ) (vk : Option Nat) : IDMap κ :=
  match m.remove pk vk with
  | .ok m' => m'
  | .error m' => m'

/-- `IDMap.to_pydevd`: dict lookup, `none` models the `KeyError`. -/
def IDMap.to_pydevd {κ : Type} [DecidableEq κ] (m : IDMap κ) (vscode_id : Nat) :
    Option κ :=
  dget m.vscode_to_pydevd vscode_id

/-- `IDMap.to_vscode`: look the key up; on a miss allocate when `autogen`,
otherwise re-raise the `KeyError` (`none`, map unchanged). -/
def IDMap.to_vscode {κ : Type} [DecidableEq κ] (m : IDMap κ) (pydevd_id : κ)
    (autogen : Bool) : Option Nat × IDMap κ :=
  match dget m.pydevd_to_vscode pydevd_id with
  | some v => (some v, m)
  | none =>
    if autogen then
      let (v, m') := m.add pydevd_id
      (some v, m')
    else (none, m)

/-- One externally invokable allocate/release operation on an `IDMap`,
following the operation surface of the source (`release` takes either the
internal key or the external ID). -/
inductive IDOp (κ : Type) where
  | add (k : κ)
  | addF (f : Nat → κ)
  | removeByPyd (k : κ)
  | removeByVsc (v : Nat)

/-- Run one operation, returning the allocated external ID (for the two
allocate forms) and the resulting map. -/
def IDMap.runOp {κ : Type} [DecidableEq κ] (m : IDMap κ) :
    IDOp κ → Option Nat × IDMap κ
  | .add k => let (v, m') := m.add k; (some v, m')
  | .addF f => let (v, m') := m.addF f; (some v, m')
  | .removeByPyd k => (none, m.removeState (some k) none)
  | .removeByVsc v => (none, m.removeState none (some v))

/-- Run a sequence of operations. -/
def IDMap.runOps {κ : Type} [DecidableEq κ] (m : IDMap κ) (ops : List (IDOp κ)) :
    IDMap κ :=
  ops.foldl (fun acc op => (acc.runOp op).2) m

/-- Run a sequence of operations, collecting every allocated external ID in
order. -/
def IDMap.runOpsIds {κ : Type} [DecidableEq κ] :
    IDMap κ → List (IDOp κ) → List Nat × IDMap κ
  | m, [] => ([], m)
  | m, op :: ops =>
    let (v, m') := m.runOp op
    let (ids, m'') := m'.runOpsIds ops
    (v.toList ++ ids, m'')

/-- The two dicts of an `IDMap` are exact mutual inverses: an external ID is
mapped iff its internal key is, and each maps to the other. -/
def IDMap.Inv {κ : Type} [DecidableEq κ] (m : IDMap κ) : Prop :=
  ∀ v k, dget m.vscode_to_pydevd v = some k ↔ dget m.pydevd_to_vscode k = some v

/-- Well-formedness of an `IDMap`: unique keys in each dict, mutual-inverse
dicts, and every allocated external ID below the counter. -/
def IDMap.WF {κ : Type} [DecidableEq κ] (m : IDMap κ) : Prop :=
  (m.vscode_to_pydevd.map Prod.fst).Nodup ∧
  (m.pydevd_to_vscode.map Prod.fst).Nodup ∧
  m.Inv ∧
  ∀ p ∈ m.vscode_to_pydevd, p.1 < m.next_id

/-- An operation respects the adapter's allocation discipline: allocations
only register internal keys that are not currently mapped.  Every allocation
the adapter performs is of this shape (`to_vscode` allocates only on a miss,
and breakpoint factory keys embed the fresh external ID). -/
def IDMap.OpOK {κ : Type} [DecidableEq κ] (m : IDMap κ) : IDOp κ → Prop
  | .add k => dget m.pydevd_to_vscode k = none
  | .addF f => dget m.pydevd_to_vscode (f m.next_id) = none
  | .removeByPyd _ => True
  | .removeByVsc _ => True

/-- Every operation of the sequence respects `OpOK` at its execution point. -/
def IDMap.RunOK {κ : Type} [DecidableEq κ] : IDMap κ → List (IDOp κ) → Prop
  | _, [] => True
  | m, op :: ops => m.OpOK op ∧ IDMap.RunOK (m.runOp op).2 ops

/-- State of `PydevdSocket` relevant to request correlation: the sequence
counter and the pending-request table (sequence number to future handle). -/
structure PydevdSocket where
  seq : Nat
  requests : List (Nat × Nat)
deriving DecidableEq

/-- The observable effect of one `PydevdSocket.send` call: either the pending
future is resolved with the `(cmd_id, seq, args)` triple, or the frame is
dispatched to the event-handling callback (`_handle_msg`). -/
inductive SendEffect where
  | resolved (futId : Nat) (reply : Nat × Nat × Str)
  | dispatched (cmd_id : Nat) (seqNo : Nat) (args : Str)
deriving DecidableEq

/-- `PydevdSocket.__init__`: counter starts at 1000000000, no pending entry. -/
def PydevdSocket.initial : PydevdSocket := ⟨1000000000, []⟩

/-- `PydevdSocket.send` after frame parsing: pop the pending entry for the
sequence number; resolve it if present, otherwise hand the frame to the
event path. -/
def PydevdSocket.send (s : PydevdSocket) (cmd_id seqNo : Nat) (args : Str) :
    PydevdSocket × SendEffect :=
  match dget s.requests seqNo with
  | some futId =>
    ({ s with requests := ddel s.requests seqNo },
     SendEffect.resolved futId (cmd_id, seqNo, args))
  | none => (s, SendEffect.dispatched cmd_id seqNo args)

/-- `PydevdSocket.pydevd_request`: allocate the next sequence number and
register the caller's future handle as pending. -/
def PydevdSocket.pydevd_request (s : PydevdSocket) (futId : Nat) :
    Nat × PydevdSocket :=
  (s.seq, { seq := s.seq + 1, requests := dset s.requests s.seq futId })

/-- `ExceptionInfo` from `wrapper.py`. -/
structure ExceptionInfo where
  name : Str
  description : Str
  stack : Option Str
  source : Option Str
deriving DecidableEq

/-- Internal key of a frame: `(thread_id, frame_id)`. -/
abbrev FrameKey := Str × Str

/-- Internal key of a variable: the thread id followed by the remaining
path components (`frame_id`, `'FRAME'`/`'EXPRESSION'`, child steps). -/
abbrev VarKey := Str × List Str

/-- Internal key of a breakpoint: `(path, bp_id)`. -/
abbrev BpKey := Str × Nat

/-- Editor-facing events emitted by the handlers under verification. -/
inductive VscEvent where
  | continued (threadId : Nat)
  | threadExited (threadId : Nat)
deriving DecidableEq

/-- The portion of `VSCodeMessageProcessor` state that the thread-run event
handler touches. -/
structure ProcState where
  stack_traces : List (Str × List Str)
  active_exceptions : List (Str × ExceptionInfo)
  thread_map : IDMap Str
  frame_map : IDMap FrameKey
  var_map : IDMap VarKey

/-- The source pattern `for k, v in m.pairs(): if P(k): m.remove(k, v)`:
iterate over a snapshot of the pairs, removing the matching ones. -/
def IDMap.removeMatching {κ : Type} [DecidableEq κ] (m : IDMap κ)
    (P : κ → Bool) : IDMap κ :=
  m.pairs.foldl
    (fun acc p => if P p.1 then acc.removeState (some p.1) (some p.2) else acc) m

/-- `on_pydevd_thread_run` (the `args` frame already split into the thread
id): drop the thread's stack-trace and active-exception cache entries
(`except KeyError: pass`), release every frame and variable ID scoped to the
thread, and emit `continued` only when the thread is known externally. -/
def on_pydevd_thread_run (st : ProcState) (pyd_tid : Str) :
    ProcState × List VscEvent :=
  let st1 := { st with stack_traces := ddel st.stack_traces pyd_tid }
  let st2 := { st1 with active_exceptions := ddel st1.active_exceptions pyd_tid }
  let st3 := { st2 with
    frame_map := st2.frame_map.removeMatching (fun k => decide (k.1 = pyd_tid)) }
  let st4 := { st3 with
    var_map := st3.var_map.removeMatching (fun k => decide (k.1 = pyd_tid)) }
  match (st4.thread_map.to_vscode pyd_tid false).1 with
  | some vsc_tid => (st4, [VscEvent.continued vsc_tid])
  | none => (st4, [])

/-- The debug options consulted by `on_setBreakpoints`. -/
structure DebugOptions where
  django : Bool
  flask : Bool

/-- One breakpoint spec from a DAP `setBreakpoints` request.  A missing
`logMessage` is the empty string, as `args.get('logMessage', '')` yields. -/
structure BpSpec where
  line : Nat
  condition : Option Str
  hitCondition : Option Str
  logMessage : Str
deriving DecidableEq

/-- Notifications sent to pydevd by `on_setBreakpoints`. -/
inductive PydMsg where
  | removeBreak (msg : Str)
  | setBreak (msg : Str)
deriving DecidableEq

/-- One verified-breakpoint descriptor returned to the editor. -/
structure BpOut where
  id : Nat
  verified : Bool
  line : Nat
deriving DecidableEq

/-- `_get_hit_condition_expression`: falsy input yields no expression; a bare
integer becomes a counter-equality check; `%`-prefixed becomes a modulo
check; `==`/`>`/`<`-prefixed is appended to the placeholder; anything else is
returned unchanged (unstripped). -/
def get_hit_condition_expression (hit_condition : Option Str) : Option Str :=
  match hit_condition with
  | none => none
  | some s =>
    if s = [] then none
    else
      let expr := pyStripWs s
      if isPyIntLit expr then some ("@HIT@ == ".data ++ expr)
      else if ['%'].isPrefixOf expr then
        some ("@HIT@ ".data ++ expr ++ " == 0".data)
      else if "==".data.isPrefixOf expr || ">".data.isPrefixOf expr ||
          "<".data.isPrefixOf expr then
        some ("@HIT@ ".data ++ expr)
      else some s

/-- Scanner for `re.findall(r'\x7b.*?\x7d', logMessage)`: a match starts at a
left brace and ends at the first right brace after it with no newline in
between; after a failed attempt every later left brace before the same
newline fails too, so scanning resumes past it.  The first argument holds
the reversed content accumulated since the pending left brace. -/
def findAllInterpAux : Option Str → Str → List Str
  | none, [] => []
  | none, c :: rest =>
    if c = '\x7b' then findAllInterpAux (some []) rest
    else findAllInterpAux none rest
  | some _, [] => []
  | some acc, c :: rest =>
    if c = '\n' then findAllInterpAux none rest
    else if c = '\x7d' then
      ('\x7b' :: acc.reverse ++ ['\x7d']) :: findAllInterpAux none rest
    else findAllInterpAux (some (c :: acc)) rest

/-- All `\x7b...\x7d` interpolation placeholders of a log message, in order. -/
def findAllInterp (s : Str) : List Str := findAllInterpAux none s

/-- Python `', '.join(...)`. -/
def joinSep (sep : Str) : List Str → Str
  | [] => []
  | [x] => x
  | x :: y :: xs => x ++ sep ++ joinSep sep (y :: xs)

/-- The synthesized print expression for a log-point breakpoint: with no
placeholder, print the repr of the message; otherwise replace each
placeholder occurrence in the literal text, escape double quotes, and print
one combined `format` call over the stripped placeholder contents. -/
def logpointExpression (logMessage : Str) : Str :=
  let expressions := findAllInterp logMessage
  if expressions = [] then "print(".data ++ pyRepr logMessage ++ [')']
  else
    let raw_text :=
      expressions.foldl (fun a b => replaceAll b ['\x7b', '\x7d'] a) logMessage
    let raw_text := replaceAll ['"'] ['\\', '"'] raw_text
    let expression_list :=
      joinSep ", ".data
        (expressions.map (fun s => pyStripWs (pyStripChar '\x7d' (pyStripChar '\x7b' s))))
    "print(\"".data ++ raw_text ++ "\".format(".data ++ expression_list ++ "))".data

/-- String placed in a message field for an optional value (`str.format`
renders Python `None` as `'None'`). -/
def optStrOrNone : Option Str → Str
  | none => "None".data
  | some s => s

/-- The breakpoint kind chosen by `on_setBreakpoints`: framework kinds apply
only to non-`.py` files under the matching debug option. -/
def breakpointKind (opts : DebugOptions) (path : Str) : Str :=
  if ¬ endsWithL (pyLower path) ".py".data then
    if opts.django then "django-line".data
    else if opts.flask then "jinja2-line".data
    else "python-line".data
  else "python-line".data

/-- The `CMD_SET_BREAK` payload for one spec, following
`'\x7b\x7d\t...'.format(vsc_bpid, bp_type, path, line, condition, expression,
hit_condition, is_logpoint)` with the literal `None` fifth field. -/
def setBreakMsg (bp_type path : Str) (vsc_bpid : Nat) (spec : BpSpec) : Str :=
  let hit_condition := get_hit_condition_expression spec.hitCondition
  let fields :=
    if spec.logMessage.length = 0 then
      (optStrOrNone spec.condition, "None".data, "None".data)
    else
      ("None".data, logpointExpression spec.logMessage, "True".data)
  natDigits vsc_bpid ++ '\t' :: bp_type ++ '\t' :: path ++ '\t' ::
    natDigits spec.line ++ "\tNone\t".data ++ fields.1 ++ '\t' :: fields.2.1 ++
    '\t' :: optStrOrNone hit_condition ++ '\t' :: fields.2.2

/-- Removal sweep of `on_setBreakpoints`: for every registered breakpoint of
the source path, notify `CMD_REMOVE_BREAK` and release its entry. -/
def removeBpPhase (bp_type path : Str) (m : IDMap BpKey) :
    IDMap BpKey × List PydMsg :=
  m.pairs.foldl
    (fun acc p =>
      if p.1.1 = path then
        (acc.1.removeState (some p.1) (some p.2),
         acc.2 ++ [PydMsg.removeBreak (bp_type ++ '\t' :: path ++ '\t' :: natDigits p.2)])
      else acc)
    (m, [])

/-- Registration sweep of `on_setBreakpoints`: allocate a breakpoint ID per
spec (factory key `(path, bp_id)`), notify `CMD_SET_BREAK`, and collect the
verified descriptor. -/
def addBpPhase (bp_type path : Str) (specs : List BpSpec) (m : IDMap BpKey) :
    IDMap BpKey × List PydMsg × List BpOut :=
  specs.foldl
    (fun acc spec =>
      let (vsc_bpid, m') := acc.1.addF (fun i => (path, i))
      (m', acc.2.1 ++ [PydMsg.setBreak (setBreakMsg bp_type path vsc_bpid spec)],
       acc.2.2 ++ [⟨vsc_bpid, true, spec.line⟩]))
    (m, [], [])

/-- `on_setBreakpoints` for one source path: full removal sweep for the path,
then registration of each spec in order. -/
def on_setBreakpoints (opts : DebugOptions) (m : IDMap BpKey) (path : Str)
    (src_bps : List BpSpec) : IDMap BpKey × List PydMsg × List BpOut :=
  let bp_type := breakpointKind opts path
  let (m1, msgs1) := removeBpPhase bp_type path m
  let (m2, msgs2, bps) := addBpPhase bp_type path src_bps m1
  (m2, msgs1 ++ msgs2, bps)

/-- A response sent back to the editor for one request. -/
inductive VscResponse where
  | ok
  | fail (message : Option Str)
deriving DecidableEq

/-- The failure message of a premature pause request. -/
def pauseMessage : Str := "Cannot pause while debugger is initializing".data

/-- `on_pause`: before the process-created handshake, answer with a single
failure response and send nothing to pydevd; afterwards, suspend all known
threads for thread ID zero, or the one looked-up thread (a `KeyError` on an
unknown thread escapes the async handler, `none`: no response is sent).
Returns the response, the `CMD_THREAD_SUSPEND` targets, and the (unchanged)
thread map. -/
def on_pause (is_process_created : Bool) (thread_map : IDMap Str)
    (vsc_tid : Nat) : Option VscResponse × List Str × IDMap Str :=
  if is_process_created = false then
    (some (VscResponse.fail (some pauseMessage)), [], thread_map)
  else if vsc_tid = 0 then
    (some VscResponse.ok, thread_map.pydevd_ids, thread_map)
  else
    match thread_map.to_pydevd vsc_tid with
    | some pyd_tid => (some VscResponse.ok, [pyd_tid], thread_map)
    | none => (none, [], thread_map)

/-- A parsed `var` element of a pydevd reply (attribute values are the raw,
still percent-quoted strings; a missing attribute behaves as a string that
is not `'True'`). -/
structure XVar where
  type : Str
  value : Str
  isErrorOnEval : Str
  isContainer : Bool
deriving DecidableEq

/-- Outcome of parsing a pydevd reply payload: the XML fails to parse
(`SAXParseException`), parses without a `var` element (`AttributeError`), or
yields a `var` element. -/
inductive ParseResult where
  | parseFail
  | noVar
  | ok (x : XVar)
deriving DecidableEq

/-- The pydevd commands `on_evaluate` issues. -/
inductive PydCmd where
  | evaluateExpression
  | execExpression
deriving DecidableEq

/-- The response `on_evaluate` sends for its request. -/
inductive EvalOutcome where
  | errorResponse
  | failResponse
  | hoverEmpty
  | replResult (result : Option Str) (resultType : Str)
  | normal (resultType result : Str) (variablesReference : Option Nat)
deriving DecidableEq

/-- `on_evaluate`, with the two pydevd round-trip replies supplied as inputs
(the debuggee is external).  Tabs in the expression are replaced by spaces;
the evaluate command is always issued; in `repl` context an evaluation error
triggers a retry through `CMD_EXEC_EXPRESSION` with the same payload, whose
parsed result (or, on any parse failure, the original one) is returned with
a `None`/`NoneType` result mapped to an empty result.  Returns `none` when
the frame lookup raises `KeyError` (the async handler logs and sends no
response). -/
def on_evaluate (frame_map : IDMap FrameKey) (var_map : IDMap VarKey)
    (expression context : Str) (vsc_fid : Nat)
    (evalReply execReply : ParseResult) :
    Option (EvalOutcome × IDMap VarKey × List (PydCmd × Str)) :=
  let expr := expression.map (fun c => if c = '\t' then ' ' else c)
  match frame_map.to_pydevd vsc_fid with
  | none => none
  | some (pyd_tid, pyd_fid) =>
    let msg := pyd_tid ++ '\t' :: pyd_fid ++ "\tLOCAL\t".data ++ expr ++ "\t1".data
    match evalReply with
    | ParseResult.parseFail =>
      some (EvalOutcome.errorResponse, var_map, [(PydCmd.evaluateExpression, msg)])
    | ParseResult.noVar =>
      some (EvalOutcome.failResponse, var_map, [(PydCmd.evaluateExpression, msg)])
    | ParseResult.ok xvar =>
      if context = "hover".data ∧ xvar.isErrorOnEval = "True".data then
        some (EvalOutcome.hoverEmpty, var_map, [(PydCmd.evaluateExpression, msg)])
      else if context = "repl".data ∧ xvar.isErrorOnEval = "True".data then
        let rr :=
          match execReply with
          | ParseResult.ok xvar2 => (unquoteL xvar2.type, unquoteL xvar2.value)
          | _ => (unquoteL xvar.type, unquoteL xvar.value)
        some (EvalOutcome.replResult
                (if rr.2 = "None".data ∧ rr.1 = "NoneType".data then none
                 else some rr.2)
                rr.1,
              var_map,
              [(PydCmd.evaluateExpression, msg), (PydCmd.execExpression, msg)])
      else
        let pyd_var : VarKey := (pyd_tid, [pyd_fid, "EXPRESSION".data, expr])
        let vm := var_map.to_vscode pyd_var true
        some (EvalOutcome.normal (unquoteL xvar.type) (unquoteL xvar.value)
                (if xvar.isContainer then vm.1 else none),
              vm.2, [(PydCmd.evaluateExpression, msg)])

/-- One variable dict assembled by `on_variables`. -/
structure VarEntry where
  name : Str
  type : Str
  value : Str
deriving DecidableEq

/-- `VariablesSorter.__init__`: the four buckets. -/
structure VariablesSorter where
  plain : List VarEntry
  single_underscore : List VarEntry
  double_underscore : List VarEntry
  dunder : List VarEntry

/-- The empty sorter. -/
def VariablesSorter.init : VariablesSorter := ⟨[], [], [], []⟩

/-- `VariablesSorter.append`: route the variable to its bucket by leading and
trailing underscores of its name. -/
def VariablesSorter.append (s : VariablesSorter) (var : VarEntry) :
    VariablesSorter :=
  if "__".data.isPrefixOf var.name then
    if endsWithL var.name "__".data then { s with dunder := s.dunder ++ [var] }
    else { s with double_underscore := s.double_underscore ++ [var] }
  else if "_".data.isPrefixOf var.name then
    { s with single_underscore := s.single_underscore ++ [var] }
  else { s with plain := s.plain ++ [var] }

/-- Name-based ordering used by `sort(key=lambda o: o['name'])`. -/
def nameLe (a b : VarEntry) : Prop := a.name ≤ b.name

instance : DecidableRel nameLe :=
  fun a b => inferInstanceAs (Decidable (a.name ≤ b.name))

/-- A stable ascending sort by name, as Python's stable `list.sort` with the
name key (insertion sort placing equal names after existing ones). -/
def sortByName (l : List VarEntry) : List VarEntry := l.insertionSort nameLe

/-- `VariablesSorter.get_sorted_variables`: sort every bucket by name and
concatenate them in bucket order. -/
def VariablesSorter.get_sorted_variables (s : VariablesSorter) : List VarEntry :=
  sortByName s.plain ++ sortByName s.single_underscore ++
    sortByName s.double_underscore ++ sortByName s.dunder

/-- The bucket index `VariablesSorter.append` picks for a name. -/
def classifyName (name : Str) : Nat :=
  if "__".data.isPrefixOf name then (if endsWithL name "__".data then 3 else 2)
  else if "_".data.isPrefixOf name then 1 else 0

/-- The sorter state after feeding every variable of a response in order. -/
def buildSorter (vars : List VarEntry) : VariablesSorter :=
  vars.foldl VariablesSorter.append VariablesSorter.init

/-- Whether an operation allocates an external ID. -/
def IDOp.isAlloc {κ : Type} : IDOp κ → Bool
  | .add _ => true
  | .addF _ => true
  | .removeByPyd _ => false
  | .removeByVsc _ => false

/-- Shape invariant of the breakpoint map: every registered key `(path, id)`
carries its own external ID, as the factory `lambda vsc_bpid: (path,
vsc_bpid)` guarantees. -/
def IDMap.BpKeyed (m : IDMap BpKey) : Prop :=
  ∀ (k : BpKey) (v : Nat), dget m.pydevd_to_vscode k = some v → k.2 = v


/-! ## Association-list (Python dict) lemmas -/

theorem dget_dset_self {α β : Type} [DecidableEq α] (l : List (α × β)) (k : α)
    (v : β) : dget (dset l k v) k = some v := by
  induction l with
  | nil => simp [dset, dget]
  | cons p l ih =>
    by_cases h : p.1 = k
    · simp [dset, h, dget]
    · simp [dset, h, dget, ih]

theorem dget_dset_ne {α β : Type} [DecidableEq α] (l : List (α × β)) {k k' : α}
    (v : β) (h : k' ≠ k) : dget (dset l k v) k' = dget l k' := by
  induction l with
  | nil => simp [dset, dget, Ne.symm h]
  | cons p l ih =>
    by_cases hp : p.1 = k
    · subst hp
      simp [dset, dget, Ne.symm h]
    · simp [dset, hp, dget, ih]

theorem dget_ddel_ne {α β : Type} [DecidableEq α] (l : List (α × β)) {k k' : α}
    (h : k' ≠ k) : dget (ddel l k) k' = dget l k' := by
  induction l with
  | nil => simp [ddel]
  | cons p l ih =>
    by_cases hp : p.1 = k
    · subst hp
      simp [ddel, dget, Ne.symm h]
    · simp [ddel, hp, dget, ih]

theorem dget_none_of_not_mem_keys {α β : Type} [DecidableEq α]
    {l : List (α × β)} {k : α} (h : k ∉ l.map Prod.fst) : dget l k = none := by
  induction l with
  | nil => rfl
  | cons p l ih =>
    simp only [List.map_cons, List.mem_cons, not_or] at h
    have hpk : p.1 ≠ k := fun hc => h.1 hc.symm
    simp [dget, hpk, ih h.2]

theorem dget_ddel_self {α β : Type} [DecidableEq α] {l : List (α × β)} {k : α}
    (h : (l.map Prod.fst).Nodup) : dget (ddel l k) k = none := by
  induction l with
  | nil => rfl
  | cons p l ih =>
    simp only [List.map_cons, List.nodup_cons] at h
    by_cases hp : p.1 = k
    · simp only [ddel, if_pos hp]
      exact dget_none_of_not_mem_keys (hp ▸ h.1)
    · simp [ddel, hp, dget, ih h.2]

theorem keys_ddel_sublist {α β : Type} [DecidableEq α] (l : List (α × β))
    (k : α) : ((ddel l k).map Prod.fst).Sublist (l.map Prod.fst) := by
  induction l with
  | nil => simp [ddel]
  | cons p l ih =>
    by_cases hp : p.1 = k
    · simp only [ddel, if_pos hp, List.map_cons]
      exact List.sublist_cons_self _ _
    · simp only [ddel, if_neg hp, List.map_cons]
      exact ih.cons₂ _

theorem nodupKeys_ddel {α β : Type} [DecidableEq α] {l : List (α × β)} (k : α)
    (h : (l.map Prod.fst).Nodup) : ((ddel l k).map Prod.fst).Nodup :=
  (keys_ddel_sublist l k).nodup h

theorem keys_dset {α β : Type} [DecidableEq α] (l : List (α × β)) (k : α)
    (v : β) :
    (dset l k v).map Prod.fst =
      if k ∈ l.map Prod.fst then l.map Prod.fst else l.map Prod.fst ++ [k] := by
  induction l with
  | nil => simp [dset]
  | cons p l ih =>
    by_cases hp : p.1 = k
    · subst hp
      simp [dset, List.map_cons]
    · simp only [dset, if_neg hp, List.map_cons, ih, List.mem_cons]
      by_cases hk : k ∈ l.map Prod.fst
      · simp [hk, Ne.symm hp]
      · simp [hk, Ne.symm hp]

theorem nodupKeys_dset {α β : Type} [DecidableEq α] {l : List (α × β)} {k : α}
    (v : β) (h : (l.map Prod.fst).Nodup) :
    ((dset l k v).map Prod.fst).Nodup := by
  rw [keys_dset]
  by_cases hk : k ∈ l.map Prod.fst
  · simpa [hk] using h
  · simp only [hk, if_neg, ite_false]
    exact List.Nodup.append h (List.nodup_singleton k)
      (by simpa [List.disjoint_singleton] using hk)

theorem mem_of_dget {α β : Type} [DecidableEq α] {l : List (α × β)} {k : α}
    {v : β} (h : dget l k = some v) : (k, v) ∈ l := by
  induction l with
  | nil => simp [dget] at h
  | cons p l ih =>
    by_cases hp : p.1 = k
    · simp only [dget, if_pos hp, Option.some.injEq] at h
      exact List.mem_cons.mpr (Or.inl (Prod.ext hp h).symm)
    · simp only [dget, if_neg hp] at h
      exact List.mem_cons.mpr (Or.inr (ih h))

theorem dget_of_mem_nodup {α β : Type} [DecidableEq α] {l : List (α × β)}
    {k : α} {v : β} (hn : (l.map Prod.fst).Nodup) (h : (k, v) ∈ l) :
    dget l k = some v := by
  induction l with
  | nil => simp at h
  | cons p l ih =>
    simp only [List.map_cons, List.nodup_cons] at hn
    rcases List.mem_cons.mp h with h | h
    · simp [dget, ← h]
    · have hk : p.1 ≠ k := by
        intro hc
        exact hn.1 (hc ▸ List.mem_map_of_mem Prod.fst h)
      simp [dget, hk, ih hn.2 h]

theorem dget_isSome_iff_mem_keys {α β : Type} [DecidableEq α]
    {l : List (α × β)} {k : α} : (dget l k).isSome ↔ k ∈ l.map Prod.fst := by
  constructor
  · intro h
    rcases Option.isSome_iff_exists.mp h with ⟨v, hv⟩
    exact List.mem_map_of_mem Prod.fst (mem_of_dget hv)
  · intro h
    induction l with
    | nil => simp at h
    | cons q l ih =>
      by_cases hq : q.1 = k
      · simp [dget, hq]
      · simp only [List.map_cons, List.mem_cons] at h
        rcases h with h | h
        · exact absurd h.symm hq
        · simpa [dget, hq] using ih h

/-! ## IDMap well-formedness -/

theorem mem_dset {α β : Type} [DecidableEq α] {l : List (α × β)} {k : α}
    {v : β} {p : α × β} (h : p ∈ dset l k v) : p ∈ l ∨ p = (k, v) := by
  induction l with
  | nil =>
    simp only [dset, List.mem_singleton] at h
    exact Or.inr h
  | cons q l ih =>
    by_cases hq : q.1 = k
    · simp only [dset, if_pos hq, List.mem_cons] at h
      rcases h with h | h
      · exact Or.inr h
      · exact Or.inl (List.mem_cons_of_mem _ h)
    · simp only [dset, if_neg hq, List.mem_cons] at h
      rcases h with h | h
      · exact Or.inl (List.mem_cons.mpr (Or.inl h))
      · rcases ih h with h | h
        · exact Or.inl (List.mem_cons_of_mem _ h)
        · exact Or.inr h

theorem IDMap.wf_empty (κ : Type) [DecidableEq κ] : (IDMap.empty κ).WF := by
  refine ⟨List.nodup_nil, List.nodup_nil, ?_, ?_⟩
  · intro v k
    simp [IDMap.empty, dget]
  · intro p hp
    simp [IDMap.empty] at hp

theorem IDMap.WF.inv {κ : Type} [DecidableEq κ] {m : IDMap κ} (h : m.WF) :
    m.Inv := h.2.2.1

theorem IDMap.WF.dget_next_id {κ : Type} [DecidableEq κ] {m : IDMap κ}
    (h : m.WF) : dget m.vscode_to_pydevd m.next_id = none := by
  cases hc : dget m.vscode_to_pydevd m.next_id with
  | none => rfl
  | some k =>
    exact absurd (h.2.2.2 _ (mem_of_dget hc)) (lt_irrefl m.next_id)

theorem IDMap.add_fst {κ : Type} [DecidableEq κ] (m : IDMap κ) (k : κ) :
    (m.add k).1 = m.next_id := rfl

theorem IDMap.add_next_id {κ : Type} [DecidableEq κ] (m : IDMap κ) (k : κ) :
    (m.add k).2.next_id = m.next_id + 1 := rfl

theorem IDMap.add_dget_inv {κ : Type} [DecidableEq κ] (m : IDMap κ) (k k' : κ) :
    dget (m.add k).2.pydevd_to_vscode k' =
      if k' = k then some m.next_id else dget m.pydevd_to_vscode k' := by
  by_cases h : k' = k
  · subst h
    simp [IDMap.add, dget_dset_self]
  · simp [IDMap.add, dget_dset_ne _ _ h, h]

theorem IDMap.add_dget_fwd {κ : Type} [DecidableEq κ] (m : IDMap κ) (k : κ)
    (v : Nat) :
    dget (m.add k).2.vscode_to_pydevd v =
      if v = m.next_id then some k else dget m.vscode_to_pydevd v := by
  by_cases h : v = m.next_id
  · subst h
    simp [IDMap.add, dget_dset_self]
  · simp [IDMap.add, dget_dset_ne _ _ h, h]

theorem IDMap.add_wf {κ : Type} [DecidableEq κ] {m : IDMap κ} {k : κ}
    (h : m.WF) (hk : dget m.pydevd_to_vscode k = none) : ((m.add k).2).WF := by
  obtain ⟨hn1, hn2, hinv, hbound⟩ := h
  refine ⟨nodupKeys_dset _ hn1, nodupKeys_dset _ hn2, ?_, ?_⟩
  · intro v' k'
    rw [IDMap.add_dget_fwd, IDMap.add_dget_inv]
    by_cases hv : v' = m.next_id
    · by_cases hk' : k' = k
      · rw [if_pos hv, if_pos hk', hv, hk']
        simp
      · rw [if_pos hv, if_neg hk']
        constructor
        · intro hc
          rw [Option.some.injEq] at hc
          exact absurd hc.symm hk'
        · intro hc
          have h2 := (hinv v' k').mpr hc
          rw [hv, IDMap.WF.dget_next_id ⟨hn1, hn2, hinv, hbound⟩] at h2
          cases h2
    · by_cases hk' : k' = k
      · rw [if_neg hv, if_pos hk']
        constructor
        · intro hc
          have h2 := (hinv v' k').mp hc
          rw [hk', hk] at h2
          cases h2
        · intro hc
          rw [Option.some.injEq] at hc
          exact absurd hc.symm hv
      · rw [if_neg hv, if_neg hk']
        exact hinv v' k'
  · intro p hp
    simp only [IDMap.add] at hp ⊢
    rcases mem_dset hp with h | h
    · exact Nat.lt_succ_of_lt (hbound _ h)
    · rw [h]
      exact Nat.lt_succ_self _

theorem ddel_sublist {α β : Type} [DecidableEq α] (l : List (α × β)) (k : α) :
    (ddel l k).Sublist l := by
  induction l with
  | nil => simp [ddel]
  | cons p l ih =>
    by_cases hp : p.1 = k
    · simp only [ddel, if_pos hp]
      exact List.sublist_cons_self _ _
    · simp only [ddel, if_neg hp]
      exact ih.cons₂ _

theorem IDMap.erase_wf {κ : Type} [DecidableEq κ] {m : IDMap κ} {k : κ}
    {v : Nat} (h : m.WF) (hkv : dget m.pydevd_to_vscode k = some v) :
    (IDMap.mk (ddel m.vscode_to_pydevd v) (ddel m.pydevd_to_vscode k)
      m.next_id).WF := by
  obtain ⟨hn1, hn2, hinv, hbound⟩ := h
  have hfv : dget m.vscode_to_pydevd v = some k := (hinv v k).mpr hkv
  refine ⟨nodupKeys_ddel _ hn1, nodupKeys_ddel _ hn2, ?_, ?_⟩
  · intro v' k'
    by_cases hv : v' = v
    · by_cases hk' : k' = k
      · rw [hv, hk', dget_ddel_self hn1, dget_ddel_self hn2]
        simp
      · rw [hv, dget_ddel_self hn1, dget_ddel_ne _ hk']
        constructor
        · intro hc
          cases hc
        · intro hc
          have h2 := (hinv v k').mpr hc
          rw [hfv, Option.some.injEq] at h2
          exact absurd h2.symm hk'
    · by_cases hk' : k' = k
      · rw [dget_ddel_ne _ hv, hk', dget_ddel_self hn2]
        constructor
        · intro hc
          have h2 := (hinv v' k).mp hc
          rw [hkv, Option.some.injEq] at h2
          exact absurd h2.symm hv
        · intro hc
          cases hc
      · rw [dget_ddel_ne _ hv, dget_ddel_ne _ hk']
        exact hinv v' k'
  · intro p hp
    exact hbound _ ((ddel_sublist _ _).mem hp)

theorem IDMap.remove_pair_ok {κ : Type} [DecidableEq κ] {m : IDMap κ} {k : κ}
    {v : Nat} (h : m.WF) (hkv : dget m.pydevd_to_vscode k = some v) :
    m.remove (some k) (some v) =
      Except.ok (IDMap.mk (ddel m.vscode_to_pydevd v)
        (ddel m.pydevd_to_vscode k) m.next_id) := by
  have hfv : dget m.vscode_to_pydevd v = some k := (h.inv v k).mpr hkv
  simp only [IDMap.remove, hfv, hkv]

theorem IDMap.removeState_pair {κ : Type} [DecidableEq κ] {m : IDMap κ}
    {k : κ} {v : Nat} (h : m.WF) (hkv : dget m.pydevd_to_vscode k = some v) :
    m.removeState (some k) (some v) =
      IDMap.mk (ddel m.vscode_to_pydevd v) (ddel m.pydevd_to_vscode k)
        m.next_id := by
  rw [IDMap.removeState, IDMap.remove_pair_ok h hkv]

theorem IDMap.removeState_pyd_some {κ : Type} [DecidableEq κ] {m : IDMap κ}
    {k : κ} {v : Nat} (hkv : dget m.pydevd_to_vscode k = some v) :
    m.removeState (some k) none =
      IDMap.mk (ddel m.vscode_to_pydevd v) (ddel m.pydevd_to_vscode k)
        m.next_id := by
  simp only [IDMap.removeState, IDMap.remove, hkv]

theorem IDMap.removeState_pyd_none {κ : Type} [DecidableEq κ] {m : IDMap κ}
    {k : κ} (hkv : dget m.pydevd_to_vscode k = none) :
    m.removeState (some k) none = m := by
  simp only [IDMap.removeState, IDMap.remove, hkv]

theorem IDMap.removeState_vsc_some {κ : Type} [DecidableEq κ] {m : IDMap κ}
    {k : κ} {v : Nat} (hfv : dget m.vscode_to_pydevd v = some k) :
    m.removeState none (some v) =
      IDMap.mk (ddel m.vscode_to_pydevd v) (ddel m.pydevd_to_vscode k)
        m.next_id := by
  simp only [IDMap.removeState, IDMap.remove, hfv]

theorem IDMap.removeState_vsc_none {κ : Type} [DecidableEq κ] {m : IDMap κ}
    {v : Nat} (hfv : dget m.vscode_to_pydevd v = none) :
    m.removeState none (some v) = m := by
  simp only [IDMap.removeState, IDMap.remove, hfv]

theorem IDMap.runOp_wf {κ : Type} [DecidableEq κ] {m : IDMap κ} {op : IDOp κ}
    (h : m.WF) (hop : m.OpOK op) : ((m.runOp op).2).WF := by
  cases op with
  | add k => exact IDMap.add_wf h hop
  | addF f => exact IDMap.add_wf h hop
  | removeByPyd k =>
    simp only [IDMap.runOp]
    cases hkv : dget m.pydevd_to_vscode k with
    | none =>
      rw [IDMap.removeState_pyd_none hkv]
      exact h
    | some v =>
      rw [IDMap.removeState_pyd_some hkv]
      exact IDMap.erase_wf h hkv
  | removeByVsc v =>
    simp only [IDMap.runOp]
    cases hfv : dget m.vscode_to_pydevd v with
    | none =>
      rw [IDMap.removeState_vsc_none hfv]
      exact h
    | some k =>
      rw [IDMap.removeState_vsc_some hfv]
      exact IDMap.erase_wf h ((h.inv v k).mp hfv)

theorem IDMap.runOps_cons {κ : Type} [DecidableEq κ] (m : IDMap κ) (op : IDOp κ)
    (ops : List (IDOp κ)) :
    m.runOps (op :: ops) = ((m.runOp op).2).runOps ops := rfl

theorem IDMap.runOps_wf {κ : Type} [DecidableEq κ] :
    ∀ (ops : List (IDOp κ)) (m : IDMap κ), m.WF → m.RunOK ops →
      (m.runOps ops).WF := by
  intro ops
  induction ops with
  | nil =>
    intro m h _
    exact h
  | cons op ops ih =>
    intro m h hok
    rw [IDMap.runOps_cons]
    exact ih _ (IDMap.runOp_wf h hok.1) hok.2

theorem IDMap.to_vscode_miss {κ : Type} [DecidableEq κ] (m : IDMap κ) (k : κ)
    (h : dget m.pydevd_to_vscode k = none) :
    m.to_vscode k false = (none, m) := by
  simp [IDMap.to_vscode, h]

theorem IDMap.removeState_next_id {κ : Type} [DecidableEq κ] (m : IDMap κ)
    (pk : Option κ) (vk : Option Nat) :
    (m.removeState pk vk).next_id = m.next_id := by
  rcases pk with _ | k <;> rcases vk with _ | v
  · rfl
  · rcases h : dget m.vscode_to_pydevd v with _ | k <;>
      simp [IDMap.removeState, IDMap.remove, h]
  · rcases h : dget m.pydevd_to_vscode k with _ | v <;>
      simp [IDMap.removeState, IDMap.remove, h]
  · rcases h : dget m.vscode_to_pydevd v with _ | k'
    · simp [IDMap.removeState, IDMap.remove, h]
    · rcases h2 : dget m.pydevd_to_vscode k with _ | v' <;>
        simp [IDMap.removeState, IDMap.remove, h, h2]

theorem IDMap.runOp_next_id {κ : Type} [DecidableEq κ] (m : IDMap κ)
    (op : IDOp κ) :
    ((m.runOp op).2).next_id =
      if op.isAlloc then m.next_id + 1 else m.next_id := by
  cases op with
  | add k => rfl
  | addF f => rfl
  | removeByPyd k =>
    simp only [IDMap.runOp, IDOp.isAlloc, Bool.false_eq_true, if_false]
    exact IDMap.removeState_next_id m _ _
  | removeByVsc v =>
    simp only [IDMap.runOp, IDOp.isAlloc, Bool.false_eq_true, if_false]
    exact IDMap.removeState_next_id m _ _

theorem IDMap.runOp_fst {κ : Type} [DecidableEq κ] (m : IDMap κ) (op : IDOp κ) :
    (m.runOp op).1 = if op.isAlloc then some m.next_id else none := by
  cases op <;> rfl

theorem IDMap.runOpsIds_cons {κ : Type} [DecidableEq κ] (m : IDMap κ)
    (op : IDOp κ) (ops : List (IDOp κ)) :
    (m.runOpsIds (op :: ops)).1 =
      (m.runOp op).1.toList ++ (((m.runOp op).2).runOpsIds ops).1 := by
  simp only [IDMap.runOpsIds]

theorem range'_chain'_lt : ∀ (n s : Nat), (List.range' s n).Chain' (· < ·) := by
  intro n
  induction n with
  | zero => intro s; simp
  | succ n ih =>
    intro s
    rw [List.range'_succ]
    rw [List.chain'_cons']
    refine ⟨?_, ih (s + 1)⟩
    intro b hb
    cases n with
    | zero => simp at hb
    | succ n =>
      rw [List.range'_succ] at hb
      simp only [List.head?_cons, Option.mem_def, Option.some.injEq] at hb
      omega

theorem IDMap.runOpsIds_eq_range' {κ : Type} [DecidableEq κ] :
    ∀ (ops : List (IDOp κ)) (m : IDMap κ),
      (m.runOpsIds ops).1 =
        List.range' m.next_id (ops.countP IDOp.isAlloc) := by
  intro ops
  induction ops with
  | nil =>
    intro m
    rfl
  | cons op ops ih =>
    intro m
    cases op with
    | add k =>
      simp [IDMap.runOpsIds_cons, IDMap.runOp, IDMap.add, ih,
        List.countP_cons, IDOp.isAlloc, List.range'_succ]
    | addF f =>
      simp [IDMap.runOpsIds_cons, IDMap.runOp, IDMap.addF, IDMap.add, ih,
        List.countP_cons, IDOp.isAlloc, List.range'_succ]
    | removeByPyd k =>
      simp [IDMap.runOpsIds_cons, IDMap.runOp, ih, List.countP_cons,
        IDOp.isAlloc, IDMap.removeState_next_id]
    | removeByVsc v =>
      simp [IDMap.runOpsIds_cons, IDMap.runOp, ih, List.countP_cons,
        IDOp.isAlloc, IDMap.removeState_next_id]

/-- C1 (counterexample): two successive `add` calls with the same internal
key leave the dicts out of sync: external ID 1 still maps to key 0, but key
0 maps back to external ID 2, so the two dicts are not mutual inverses. -/
theorem idmap_mutual_inverse_counterexample :
    ¬ (IDMap.runOps (IDMap.empty Nat) [IDOp.add 0, IDOp.add 0]).Inv := by
  intro h
  have h1 := (h 1 0).mp (by decide)
  revert h1
  decide

/-- C1 (amended): for every sequence of allocate/release operations in which
each allocation registers an internal key not currently mapped (as every
allocation the adapter performs does), the two dicts of the `IDMap` remain
exact mutual inverses; and `to_vscode` with `autogen=false` on an
unregistered internal key always fails with `KeyError`, leaving the map
unchanged. -/
theorem idmap_mutual_inverse_invariant {κ : Type} [DecidableEq κ]
    (ops : List (IDOp κ)) (h : (IDMap.empty κ).RunOK ops) :
    ((IDMap.empty κ).runOps ops).Inv ∧
      ∀ (m : IDMap κ) (k : κ), dget m.pydevd_to_vscode k = none →
        m.to_vscode k false = (none, m) :=
  ⟨(IDMap.runOps_wf ops _ (IDMap.wf_empty κ) h).inv,
   fun m k hk => IDMap.to_vscode_miss m k hk⟩

/-- Witness for C1 (amended) at a concrete operation sequence. -/
theorem idmap_mutual_inverse_invariant_witness :
    (IDMap.empty Nat).RunOK
      [IDOp.add 5, IDOp.removeByPyd 5, IDOp.add 5, IDOp.removeByVsc 2] ∧
    (((IDMap.empty Nat).runOps
        [IDOp.add 5, IDOp.removeByPyd 5, IDOp.add 5, IDOp.removeByVsc 2]).Inv ∧
      ∀ (m : IDMap Nat) (k : Nat), dget m.pydevd_to_vscode k = none →
        m.to_vscode k false = (none, m)) := by
  have hok : (IDMap.empty Nat).RunOK
      [IDOp.add 5, IDOp.removeByPyd 5, IDOp.add 5, IDOp.removeByVsc 2] := by
    refine ⟨?_, ?_, ?_, ?_, trivial⟩ <;> unfold IDMap.OpOK <;> decide
  exact ⟨hok, idmap_mutual_inverse_invariant _ hok⟩

/-- C6: over any operation sequence on a fresh `IDMap`, the allocated
external IDs are exactly `1, 2, 3, ...` in order: strictly increasing,
starting at 1, and never reused even after releases. -/
theorem idmap_ids_strictly_increasing_no_reuse {κ : Type} [DecidableEq κ]
    (ops : List (IDOp κ)) :
    (((IDMap.empty κ).runOpsIds ops).1).Chain' (· < ·) ∧
    (((IDMap.empty κ).runOpsIds ops).1).Nodup ∧
    (((IDMap.empty κ).runOpsIds ops).1).head? =
      (if ops.countP IDOp.isAlloc = 0 then none else some 1) := by
  rw [IDMap.runOpsIds_eq_range']
  refine ⟨range'_chain'_lt _ _, List.nodup_range' _ _, ?_⟩
  cases h : ops.countP IDOp.isAlloc with
  | zero => simp
  | succ n =>
    rw [List.range'_succ]
    simp [IDMap.empty]

/-- C2 (counterexample): after a reply resolves pending sequence number 5,
a second reply frame with the same sequence number finds no pending entry
and is dispatched to the event-handling path as an ordinary unsolicited
message — it is not rejected as a protocol violation.  `send` cannot
distinguish an already-resolved sequence number from a never-pending one. -/
theorem pydevd_send_duplicate_seq_counterexample :
    ((PydevdSocket.mk 1000000000 [(5, 0)]).send 101 5 "ok".data).2 =
      SendEffect.resolved 0 (101, 5, "ok".data) ∧
    ((((PydevdSocket.mk 1000000000 [(5, 0)]).send 101 5 "ok".data).1).send
        101 5 "again".data).2 =
      SendEffect.dispatched 101 5 "again".data := by
  decide

/-- C2 (amended): with at most one pending entry per sequence number, a
reply frame matching a pending request removes the entry atomically and
resolves its handle exactly once with `(commandId, sequenceNumber,
payload)`; a frame with no pending entry — including any second frame for
an already-resolved sequence number — is not an error and is dispatched to
the event-handling path as an unsolicited message; and `pydevd_request`
keeps the at-most-one-entry invariant. -/
theorem pydevd_send_resolution (s : PydevdSocket) (cmd seqNo : Nat)
    (args args' : Str) (hn : (s.requests.map Prod.fst).Nodup) :
    (∀ futId, dget s.requests seqNo = some futId →
      (s.send cmd seqNo args).2 = SendEffect.resolved futId (cmd, seqNo, args) ∧
      dget (s.send cmd seqNo args).1.requests seqNo = none ∧
      ((s.send cmd seqNo args).1.send cmd seqNo args').2 =
        SendEffect.dispatched cmd seqNo args') ∧
    (dget s.requests seqNo = none →
      s.send cmd seqNo args = (s, SendEffect.dispatched cmd seqNo args)) ∧
    ∀ futId, (((s.pydevd_request futId).2).requests.map Prod.fst).Nodup := by
  refine ⟨?_, ?_, ?_⟩
  · intro futId h
    have hdel : dget (ddel s.requests seqNo) seqNo = none := dget_ddel_self hn
    refine ⟨by simp [PydevdSocket.send, h], ?_, ?_⟩
    · simp [PydevdSocket.send, h, hdel]
    · simp [PydevdSocket.send, h, hdel]
  · intro h
    simp [PydevdSocket.send, h]
  · intro futId
    exact nodupKeys_dset _ hn

/-- Witness for C2 (amended) at a concrete socket state. -/
theorem pydevd_send_resolution_witness :
    (((PydevdSocket.mk 1000000000 [(5, 7)]).requests.map Prod.fst).Nodup) ∧
    ((∀ futId,
        dget (PydevdSocket.mk 1000000000 [(5, 7)]).requests 5 = some futId →
        ((PydevdSocket.mk 1000000000 [(5, 7)]).send 101 5 "x".data).2 =
          SendEffect.resolved futId (101, 5, "x".data) ∧
        dget ((PydevdSocket.mk 1000000000 [(5, 7)]).send 101 5 "x".data).1.requests
          5 = none ∧
        (((PydevdSocket.mk 1000000000 [(5, 7)]).send 101 5 "x".data).1.send
            101 5 "y".data).2 = SendEffect.dispatched 101 5 "y".data) ∧
      (dget (PydevdSocket.mk 1000000000 [(5, 7)]).requests 5 = none →
        (PydevdSocket.mk 1000000000 [(5, 7)]).send 101 5 "x".data =
          (PydevdSocket.mk 1000000000 [(5, 7)],
           SendEffect.dispatched 101 5 "x".data)) ∧
      ∀ futId,
        ((((PydevdSocket.mk 1000000000 [(5, 7)]).pydevd_request futId).2).requests.map
          Prod.fst).Nodup) :=
  ⟨by decide, pydevd_send_resolution _ 101 5 "x".data "y".data (by decide)⟩

/-- C5: the hit-condition normalizer maps `"5"` to a counter-equality check
against 5, `"%3"` to a modulo-3 check, `">=2"` to a passthrough comparison,
and empty or missing input to no expression. -/
theorem hit_condition_normalization :
    get_hit_condition_expression (some "5".data) = some "@HIT@ == 5".data ∧
    get_hit_condition_expression (some "%3".data) =
      some "@HIT@ %3 == 0".data ∧
    get_hit_condition_expression (some ">=2".data) = some "@HIT@ >=2".data ∧
    get_hit_condition_expression (some [] ) = none ∧
    get_hit_condition_expression none = none := by
  decide

/-- C8: a pause request handled while the process-created flag is unset gets
exactly one failure response carrying an explanatory message, no
thread-suspend notification is sent to pydevd, and the thread map is
returned unchanged. -/
theorem pause_before_process_created (thread_map : IDMap Str) (vsc_tid : Nat) :
    on_pause false thread_map vsc_tid =
      (some (VscResponse.fail (some pauseMessage)), [], thread_map) := rfl

/-- C9: for an evaluate request in `repl` context whose evaluate round-trip
reports an evaluation error, the handler reissues the same payload as a bare
`CMD_EXEC_EXPRESSION` statement execution, and when that fallback's reply
parses to a variable the response carries the fallback's unquoted type and
value — with a `'None'`/`'NoneType'` result mapped to an empty result — not
the original evaluation error. -/
theorem evaluate_repl_fallback (fm : IDMap FrameKey) (vm : IDMap VarKey)
    (expression : Str) (vsc_fid : Nat) (pyd_tid pyd_fid : Str)
    (xvar xvar2 : XVar)
    (hf : dget fm.vscode_to_pydevd vsc_fid = some (pyd_tid, pyd_fid))
    (herr : xvar.isErrorOnEval = "True".data) :
    on_evaluate fm vm expression "repl".data vsc_fid (ParseResult.ok xvar)
        (ParseResult.ok xvar2) =
      some (EvalOutcome.replResult
              (if unquoteL xvar2.value = "None".data ∧
                  unquoteL xvar2.type = "NoneType".data
               then none else some (unquoteL xvar2.value))
              (unquoteL xvar2.type),
            vm,
            [(PydCmd.evaluateExpression,
              pyd_tid ++ '\t' :: pyd_fid ++ "\tLOCAL\t".data ++
                expression.map (fun c => if c = '\t' then ' ' else c) ++
                "\t1".data),
             (PydCmd.execExpression,
              pyd_tid ++ '\t' :: pyd_fid ++ "\tLOCAL\t".data ++
                expression.map (fun c => if c = '\t' then ' ' else c) ++
                "\t1".data)]) := by
  have hrepl : ¬ (("repl".data : Str) = "hover".data ∧
      xvar.isErrorOnEval = "True".data) := by
    intro hc
    cases hc.1
  simp only [on_evaluate, IDMap.to_pydevd, hf, herr, hrepl, and_true,
    if_neg hrepl, if_pos (And.intro rfl herr)]
  rfl

/-- Witness for C9 at a concrete frame map, expression, and replies. -/
theorem evaluate_repl_fallback_witness :
    dget (IDMap.mk [(3, ("t".data, "f".data))] [(("t".data, "f".data), 3)] 4
        : IDMap FrameKey).vscode_to_pydevd 3 = some ("t".data, "f".data) ∧
    (XVar.mk "str".data "boom".data "True".data false).isErrorOnEval =
      "True".data ∧
    on_evaluate
        (IDMap.mk [(3, ("t".data, "f".data))] [(("t".data, "f".data), 3)] 4)
        (IDMap.empty VarKey) "x=1".data "repl".data 3
        (ParseResult.ok (XVar.mk "str".data "boom".data "True".data false))
        (ParseResult.ok (XVar.mk "int".data "42".data [] false)) =
      some (EvalOutcome.replResult
              (if unquoteL (XVar.mk "int".data "42".data [] false).value =
                    "None".data ∧
                  unquoteL (XVar.mk "int".data "42".data [] false).type =
                    "NoneType".data
               then none
               else some (unquoteL (XVar.mk "int".data "42".data [] false).value))
              (unquoteL (XVar.mk "int".data "42".data [] false).type),
            IDMap.empty VarKey,
            [(PydCmd.evaluateExpression,
              "t".data ++ '\t' :: "f".data ++ "\tLOCAL\t".data ++
                "x=1".data.map (fun c => if c = '\t' then ' ' else c) ++
                "\t1".data),
             (PydCmd.execExpression,
              "t".data ++ '\t' :: "f".data ++ "\tLOCAL\t".data ++
                "x=1".data.map (fun c => if c = '\t' then ' ' else c) ++
                "\t1".data)]) :=
  ⟨by decide, rfl,
   evaluate_repl_fallback _ _ "x=1".data 3 "t".data "f".data _ _ (by decide) rfl⟩

theorem IDMap.foldRemove_spec {κ : Type} [DecidableEq κ] (P : κ → Bool) :
    ∀ (ps : List (κ × Nat)) (m : IDMap κ), m.WF →
      (∀ p ∈ ps, dget m.pydevd_to_vscode p.1 = some p.2) →
      (ps.map Prod.fst).Nodup →
      ((ps.foldl (fun acc p =>
          if P p.1 then acc.removeState (some p.1) (some p.2) else acc) m).WF ∧
       (ps.foldl (fun acc p =>
          if P p.1 then acc.removeState (some p.1) (some p.2) else acc)
          m).next_id = m.next_id ∧
       (∀ k, dget (ps.foldl (fun acc p =>
          if P p.1 then acc.removeState (some p.1) (some p.2) else acc)
          m).pydevd_to_vscode k =
         (if P k = true ∧ k ∈ ps.map Prod.fst then none
          else dget m.pydevd_to_vscode k)) ∧
       (∀ v, dget (ps.foldl (fun acc p =>
          if P p.1 then acc.removeState (some p.1) (some p.2) else acc)
          m).vscode_to_pydevd v =
         (dget m.vscode_to_pydevd v).bind (fun k =>
            if P k = true ∧ k ∈ ps.map Prod.fst then none else some k))) := by
  intro ps
  induction ps with
  | nil =>
    intro m hwf _ _
    refine ⟨hwf, rfl, ?_, ?_⟩
    · intro k
      simp
    · intro v
      show dget m.vscode_to_pydevd v = (dget m.vscode_to_pydevd v).bind _
      cases dget m.vscode_to_pydevd v with
      | none => rfl
      | some k => simp
  | cons p ps ih =>
    intro m hwf hmem hnd
    simp only [List.map_cons, List.nodup_cons] at hnd
    have hp : dget m.pydevd_to_vscode p.1 = some p.2 :=
      hmem p (List.mem_cons_self _ _)
    have hfwd : dget m.vscode_to_pydevd p.2 = some p.1 := (hwf.inv p.2 p.1).mpr hp
    by_cases hP : P p.1 = true
    · have hstep : (if P p.1 = true then m.removeState (some p.1) (some p.2)
          else m) =
          IDMap.mk (ddel m.vscode_to_pydevd p.2) (ddel m.pydevd_to_vscode p.1)
            m.next_id := by
        rw [if_pos hP, IDMap.removeState_pair hwf hp]
      have hwf' : (IDMap.mk (ddel m.vscode_to_pydevd p.2)
          (ddel m.pydevd_to_vscode p.1) m.next_id).WF := IDMap.erase_wf hwf hp
      have hmem' : ∀ q ∈ ps,
          dget (IDMap.mk (ddel m.vscode_to_pydevd p.2)
            (ddel m.pydevd_to_vscode p.1) m.next_id).pydevd_to_vscode q.1 =
            some q.2 := by
        intro q hq
        have hne : q.1 ≠ p.1 := by
          intro hc
          exact hnd.1 (hc ▸ List.mem_map_of_mem Prod.fst hq)
        show dget (ddel m.pydevd_to_vscode p.1) q.1 = some q.2
        rw [dget_ddel_ne _ hne]
        exact hmem q (List.mem_cons_of_mem _ hq)
      obtain ⟨rwf, rnid, rinv, rfwd⟩ := ih _ hwf' hmem' hnd.2
      simp only [List.foldl_cons]
      rw [hstep]
      refine ⟨rwf, by rw [rnid], ?_, ?_⟩
      · intro k
        rw [rinv k]
        by_cases hk : k = p.1
        · rw [if_neg (fun hc => hnd.1 (hk ▸ hc.2)),
            if_pos ⟨hk ▸ hP, hk ▸ List.mem_cons_self _ _⟩]
          show dget (ddel m.pydevd_to_vscode p.1) k = none
          rw [hk]
          exact dget_ddel_self hwf.2.1
        · have hcons : (k ∈ p.1 :: ps.map Prod.fst) ↔ k ∈ ps.map Prod.fst := by
            simp [hk]
          by_cases hc : P k = true ∧ k ∈ ps.map Prod.fst
          · rw [if_pos hc, if_pos ⟨hc.1, List.mem_cons_of_mem _ hc.2⟩]
          · rw [if_neg hc, if_neg (fun hc2 => hc ⟨hc2.1, hcons.mp hc2.2⟩)]
            show dget (ddel m.pydevd_to_vscode p.1) k = _
            rw [dget_ddel_ne _ hk]
      · intro v
        rw [rfwd v]
        by_cases hv : v = p.2
        · have h1 : dget (ddel m.vscode_to_pydevd p.2) v = none := by
            rw [hv]
            exact dget_ddel_self hwf.1
          show (dget (ddel m.vscode_to_pydevd p.2) v).bind _ =
            (dget m.vscode_to_pydevd v).bind _
          rw [h1, hv, hfwd]
          simp only [Option.none_bind, Option.some_bind]
          rw [if_pos ⟨hP, List.mem_cons_self _ _⟩]
        · show (dget (ddel m.vscode_to_pydevd p.2) v).bind _ =
            (dget m.vscode_to_pydevd v).bind _
          rw [dget_ddel_ne _ hv]
          cases hk : dget m.vscode_to_pydevd v with
          | none => rfl
          | some k =>
            simp only [Option.some_bind]
            have hkp : k ≠ p.1 := by
              intro hc
              have h2 := (hwf.inv v k).mp hk
              rw [hc, hp, Option.some.injEq] at h2
              exact hv h2.symm
            have hcons : (k ∈ p.1 :: ps.map Prod.fst) ↔
                k ∈ ps.map Prod.fst := by simp [hkp]
            by_cases hc : P k = true ∧ k ∈ ps.map Prod.fst
            · rw [if_pos hc, if_pos ⟨hc.1, List.mem_cons_of_mem _ hc.2⟩]
            · rw [if_neg hc, if_neg (fun hc2 => hc ⟨hc2.1, hcons.mp hc2.2⟩)]
    · have hstep : (if P p.1 = true then m.removeState (some p.1) (some p.2)
          else m) = m := if_neg hP
      obtain ⟨rwf, rnid, rinv, rfwd⟩ :=
        ih m hwf (fun q hq => hmem q (List.mem_cons_of_mem _ hq)) hnd.2
      simp only [List.foldl_cons]
      rw [hstep]
      refine ⟨rwf, rnid, ?_, ?_⟩
      · intro k
        rw [rinv k]
        by_cases hc : P k = true ∧ k ∈ ps.map Prod.fst
        · rw [if_pos hc, if_pos ⟨hc.1, List.mem_cons_of_mem _ hc.2⟩]
        · rw [if_neg hc, if_neg ?_]
          intro hc2
          rcases List.mem_cons.mp hc2.2 with h | h
          · exact hP (h ▸ hc2.1)
          · exact hc ⟨hc2.1, h⟩
      · intro v
        rw [rfwd v]
        cases hk : dget m.vscode_to_pydevd v with
        | none => rfl
        | some k =>
          simp only [Option.some_bind]
          by_cases hc : P k = true ∧ k ∈ ps.map Prod.fst
          · rw [if_pos hc, if_pos ⟨hc.1, List.mem_cons_of_mem _ hc.2⟩]
          · rw [if_neg hc, if_neg ?_]
            intro hc2
            rcases List.mem_cons.mp hc2.2 with h | h
            · exact hP (h ▸ hc2.1)
            · exact hc ⟨hc2.1, h⟩

theorem IDMap.removeMatching_spec {κ : Type} [DecidableEq κ] (m : IDMap κ)
    (P : κ → Bool) (h : m.WF) :
    (m.removeMatching P).WF ∧
    (m.removeMatching P).next_id = m.next_id ∧
    (∀ k, dget (m.removeMatching P).pydevd_to_vscode k =
      (if P k = true then none else dget m.pydevd_to_vscode k)) ∧
    (∀ v, dget (m.removeMatching P).vscode_to_pydevd v =
      (dget m.vscode_to_pydevd v).bind (fun k =>
        if P k = true then none else some k)) := by
  have hmem : ∀ p ∈ m.pairs, dget m.pydevd_to_vscode p.1 = some p.2 :=
    fun p hp => dget_of_mem_nodup h.2.1 hp
  obtain ⟨rwf, rnid, rinv, rfwd⟩ :=
    IDMap.foldRemove_spec P m.pairs m h hmem h.2.1
  unfold IDMap.removeMatching
  refine ⟨rwf, rnid, ?_, ?_⟩
  · intro k
    rw [rinv k]
    by_cases hP : P k = true
    · rw [if_pos hP]
      by_cases hm : k ∈ m.pairs.map Prod.fst
      · rw [if_pos ⟨hP, hm⟩]
      · rw [if_neg (fun hc => hm hc.2)]
        exact dget_none_of_not_mem_keys hm
    · rw [if_neg hP, if_neg (fun hc => hP hc.1)]
  · intro v
    rw [rfwd v]
    cases hk : dget m.vscode_to_pydevd v with
    | none => rfl
    | some k =>
      simp only [Option.some_bind]
      by_cases hP : P k = true
      · have hm : k ∈ m.pairs.map Prod.fst :=
          List.mem_map_of_mem Prod.fst (mem_of_dget ((h.inv v k).mp hk))
        rw [if_pos ⟨hP, hm⟩, if_pos hP]
      · rw [if_neg (fun hc => hP hc.1), if_neg hP]

/-- C3: after `on_pydevd_thread_run` for a thread, the thread's stack-trace
and active-exception cache entries are gone, every frame and variable
external ID whose internal key is scoped to the thread is unresolvable in
both directions, and a `continued` event is emitted exactly when the thread
was registered in the thread map. -/
theorem thread_run_purges (st : ProcState) (tid : Str)
    (hf : st.frame_map.WF) (hv : st.var_map.WF)
    (hs : (st.stack_traces.map Prod.fst).Nodup)
    (ha : (st.active_exceptions.map Prod.fst).Nodup) :
    dget (on_pydevd_thread_run st tid).1.stack_traces tid = none ∧
    dget (on_pydevd_thread_run st tid).1.active_exceptions tid = none ∧
    (∀ k : FrameKey, k.1 = tid →
      dget (on_pydevd_thread_run st tid).1.frame_map.pydevd_to_vscode k =
        none) ∧
    (∀ (vsc_fid : Nat) (k : FrameKey),
      dget st.frame_map.vscode_to_pydevd vsc_fid = some k → k.1 = tid →
      dget (on_pydevd_thread_run st tid).1.frame_map.vscode_to_pydevd
        vsc_fid = none) ∧
    (∀ k : VarKey, k.1 = tid →
      dget (on_pydevd_thread_run st tid).1.var_map.pydevd_to_vscode k =
        none) ∧
    (∀ (vsc_var : Nat) (k : VarKey),
      dget st.var_map.vscode_to_pydevd vsc_var = some k → k.1 = tid →
      dget (on_pydevd_thread_run st tid).1.var_map.vscode_to_pydevd
        vsc_var = none) ∧
    (∀ vsc_tid : Nat, dget st.thread_map.pydevd_to_vscode tid = some vsc_tid →
      (on_pydevd_thread_run st tid).2 = [VscEvent.continued vsc_tid]) ∧
    (dget st.thread_map.pydevd_to_vscode tid = none →
      (on_pydevd_thread_run st tid).2 = []) := by
  obtain ⟨fwf, fnid, finv, ffwd⟩ :=
    IDMap.removeMatching_spec st.frame_map (fun k => decide (k.1 = tid)) hf
  obtain ⟨vwf, vnid, vinv, vfwd⟩ :=
    IDMap.removeMatching_spec st.var_map (fun k => decide (k.1 = tid)) hv
  have hrun : ∀ res : ProcState × List VscEvent,
      res = on_pydevd_thread_run st tid →
      res.1.stack_traces = ddel st.stack_traces tid ∧
      res.1.active_exceptions = ddel st.active_exceptions tid ∧
      res.1.frame_map =
        st.frame_map.removeMatching (fun k => decide (k.1 = tid)) ∧
      res.1.var_map =
        st.var_map.removeMatching (fun k => decide (k.1 = tid)) ∧
      res.2 = (match dget st.thread_map.pydevd_to_vscode tid with
        | some v => [VscEvent.continued v]
        | none => []) := by
    intro res hres
    unfold on_pydevd_thread_run at hres
    cases hk : dget st.thread_map.pydevd_to_vscode tid with
    | some vtid =>
      simp only [IDMap.to_vscode, hk] at hres
      rw [hres]
      exact ⟨rfl, rfl, rfl, rfl, rfl⟩
    | none =>
      simp only [IDMap.to_vscode, hk] at hres
      rw [hres]
      exact ⟨rfl, rfl, rfl, rfl, rfl⟩
  obtain ⟨e1, e2, e3, e4, e5⟩ := hrun _ rfl
  refine ⟨?_, ?_, ?_, ?_, ?_, ?_, ?_, ?_⟩
  · rw [e1]
    exact dget_ddel_self hs
  · rw [e2]
    exact dget_ddel_self ha
  · intro k hk
    rw [e3, finv k, if_pos (by simp [hk])]
  · intro vsc_fid k hlk hk
    rw [e3, ffwd vsc_fid, hlk]
    simp only [Option.some_bind]
    rw [if_pos (by simp [hk])]
  · intro k hk
    rw [e4, vinv k, if_pos (by simp [hk])]
  · intro vsc_var k hlk hk
    rw [e4, vfwd vsc_var, hlk]
    simp only [Option.some_bind]
    rw [if_pos (by simp [hk])]
  · intro vsc_tid hk
    rw [e5, hk]
  · intro hk
    rw [e5, hk]

/-- Witness for C3 at a concrete bridge state. -/
theorem thread_run_purges_witness :
    (ProcState.mk [("t1".data, [])]
        [("t1".data, ExceptionInfo.mk "E".data "d".data none none)]
        (IDMap.mk [(1, "t1".data)] [("t1".data, 1)] 2)
        (IDMap.empty FrameKey) (IDMap.empty VarKey)).frame_map.WF ∧
    (ProcState.mk [("t1".data, [])]
        [("t1".data, ExceptionInfo.mk "E".data "d".data none none)]
        (IDMap.mk [(1, "t1".data)] [("t1".data, 1)] 2)
        (IDMap.empty FrameKey) (IDMap.empty VarKey)).var_map.WF ∧
    ((ProcState.mk [("t1".data, [])]
        [("t1".data, ExceptionInfo.mk "E".data "d".data none none)]
        (IDMap.mk [(1, "t1".data)] [("t1".data, 1)] 2)
        (IDMap.empty FrameKey) (IDMap.empty VarKey)).stack_traces.map
      Prod.fst).Nodup ∧
    ((ProcState.mk [("t1".data, [])]
        [("t1".data, ExceptionInfo.mk "E".data "d".data none none)]
        (IDMap.mk [(1, "t1".data)] [("t1".data, 1)] 2)
        (IDMap.empty FrameKey) (IDMap.empty VarKey)).active_exceptions.map
      Prod.fst).Nodup ∧
    (dget (on_pydevd_thread_run (ProcState.mk [("t1".data, [])]
        [("t1".data, ExceptionInfo.mk "E".data "d".data none none)]
        (IDMap.mk [(1, "t1".data)] [("t1".data, 1)] 2)
        (IDMap.empty FrameKey) (IDMap.empty VarKey)) "t1".data).1.stack_traces
      "t1".data = none ∧
     dget (on_pydevd_thread_run (ProcState.mk [("t1".data, [])]
        [("t1".data, ExceptionInfo.mk "E".data "d".data none none)]
        (IDMap.mk [(1, "t1".data)] [("t1".data, 1)] 2)
        (IDMap.empty FrameKey) (IDMap.empty VarKey))
        "t1".data).1.active_exceptions "t1".data = none ∧
     (∀ k : FrameKey, k.1 = "t1".data →
      dget (on_pydevd_thread_run (ProcState.mk [("t1".data, [])]
          [("t1".data, ExceptionInfo.mk "E".data "d".data none none)]
          (IDMap.mk [(1, "t1".data)] [("t1".data, 1)] 2)
          (IDMap.empty FrameKey) (IDMap.empty VarKey))
          "t1".data).1.frame_map.pydevd_to_vscode k = none) ∧
     (∀ (vsc_fid : Nat) (k : FrameKey),
      dget (ProcState.mk [("t1".data, [])]
          [("t1".data, ExceptionInfo.mk "E".data "d".data none none)]
          (IDMap.mk [(1, "t1".data)] [("t1".data, 1)] 2)
          (IDMap.empty FrameKey)
          (IDMap.empty VarKey)).frame_map.vscode_to_pydevd vsc_fid = some k →
      k.1 = "t1".data →
      dget (on_pydevd_thread_run (ProcState.mk [("t1".data, [])]
          [("t1".data, ExceptionInfo.mk "E".data "d".data none none)]
          (IDMap.mk [(1, "t1".data)] [("t1".data, 1)] 2)
          (IDMap.empty FrameKey) (IDMap.empty VarKey))
          "t1".data).1.frame_map.vscode_to_pydevd vsc_fid = none) ∧
     (∀ k : VarKey, k.1 = "t1".data →
      dget (on_pydevd_thread_run (ProcState.mk [("t1".data, [])]
          [("t1".data, ExceptionInfo.mk "E".data "d".data none none)]
          (IDMap.mk [(1, "t1".data)] [("t1".data, 1)] 2)
          (IDMap.empty FrameKey) (IDMap.empty VarKey))
          "t1".data).1.var_map.pydevd_to_vscode k = none) ∧
     (∀ (vsc_var : Nat) (k : VarKey),
      dget (ProcState.mk [("t1".data, [])]
          [("t1".data, ExceptionInfo.mk "E".data "d".data none none)]
          (IDMap.mk [(1, "t1".data)] [("t1".data, 1)] 2)
          (IDMap.empty FrameKey)
          (IDMap.empty VarKey)).var_map.vscode_to_pydevd vsc_var = some k →
      k.1 = "t1".data →
      dget (on_pydevd_thread_run (ProcState.mk [("t1".data, [])]
          [("t1".data, ExceptionInfo.mk "E".data "d".data none none)]
          (IDMap.mk [(1, "t1".data)] [("t1".data, 1)] 2)
          (IDMap.empty FrameKey) (IDMap.empty VarKey))
          "t1".data).1.var_map.vscode_to_pydevd vsc_var = none) ∧
     (∀ vsc_tid : Nat,
      dget (ProcState.mk [("t1".data, [])]
          [("t1".data, ExceptionInfo.mk "E".data "d".data none none)]
          (IDMap.mk [(1, "t1".data)] [("t1".data, 1)] 2)
          (IDMap.empty FrameKey)
          (IDMap.empty VarKey)).thread_map.pydevd_to_vscode "t1".data =
        some vsc_tid →
      (on_pydevd_thread_run (ProcState.mk [("t1".data, [])]
          [("t1".data, ExceptionInfo.mk "E".data "d".data none none)]
          (IDMap.mk [(1, "t1".data)] [("t1".data, 1)] 2)
          (IDMap.empty FrameKey) (IDMap.empty VarKey)) "t1".data).2 =
        [VscEvent.continued vsc_tid]) ∧
     (dget (ProcState.mk [("t1".data, [])]
          [("t1".data, ExceptionInfo.mk "E".data "d".data none none)]
          (IDMap.mk [(1, "t1".data)] [("t1".data, 1)] 2)
          (IDMap.empty FrameKey)
          (IDMap.empty VarKey)).thread_map.pydevd_to_vscode "t1".data =
        none →
      (on_pydevd_thread_run (ProcState.mk [("t1".data, [])]
          [("t1".data, ExceptionInfo.mk "E".data "d".data none none)]
          (IDMap.mk [(1, "t1".data)] [("t1".data, 1)] 2)
          (IDMap.empty FrameKey) (IDMap.empty VarKey)) "t1".data).2 = [])) :=
  ⟨IDMap.wf_empty FrameKey, IDMap.wf_empty VarKey, by decide, by decide,
   thread_run_purges _ "t1".data (IDMap.wf_empty FrameKey)
     (IDMap.wf_empty VarKey) (by decide) (by decide)⟩

/-- C7 (code bug, evaluated at the failing input): `on_setBreakpoints` does
not strip tabs from the expressions it frames.  A breakpoint spec whose
condition is `'a\tb'` produces a `CMD_SET_BREAK` payload holding that tab
verbatim: the tab-delimited frame has 9 tabs instead of the 8 delimiters of
a well-formed message, contradicting the spec's "tabs are stripped from all
generated expressions" (which the sibling handlers `on_setVariable`,
`on_evaluate` and `on_setExpression` do enforce with
`expr.replace('\t', ' ')`). -/
theorem setBreakpoints_tab_not_stripped :
    (on_setBreakpoints (DebugOptions.mk false false) (IDMap.empty BpKey)
        "/x.py".data [BpSpec.mk 10 (some ['a', '\t', 'b']) none []]).2.1 =
      [PydMsg.setBreak
        "1\tpython-line\t/x.py\t10\tNone\ta\tb\tNone\tNone\tNone".data] ∧
    ['a', '\t', 'b'].count '\t' = 1 ∧
    ("1\tpython-line\t/x.py\t10\tNone\ta\tb\tNone\tNone\tNone".data.count
      '\t') = 9 := by
  refine ⟨by decide, by decide, by decide⟩

theorem buildSorter_foldl (vs : List VarEntry) :
    ∀ s : VariablesSorter,
      vs.foldl VariablesSorter.append s =
        VariablesSorter.mk
          (s.plain ++ vs.filter (fun v => decide (classifyName v.name = 0)))
          (s.single_underscore ++
            vs.filter (fun v => decide (classifyName v.name = 1)))
          (s.double_underscore ++
            vs.filter (fun v => decide (classifyName v.name = 2)))
          (s.dunder ++ vs.filter (fun v => decide (classifyName v.name = 3))) := by
  induction vs with
  | nil =>
    intro s
    simp
  | cons v vs ih =>
    intro s
    rw [List.foldl_cons, ih]
    by_cases h2 : "__".data.isPrefixOf v.name = true
    · by_cases hd : endsWithL v.name "__".data = true
      · have hc : classifyName v.name = 3 := by
          unfold classifyName
          rw [if_pos h2, if_pos hd]
        simp [VariablesSorter.append, h2, hd, hc, List.filter_cons]
      · have hc : classifyName v.name = 2 := by
          unfold classifyName
          rw [if_pos h2, if_neg hd]
        simp [VariablesSorter.append, h2, hd, hc, List.filter_cons]
    · by_cases h1 : "_".data.isPrefixOf v.name = true
      · have hc : classifyName v.name = 1 := by
          unfold classifyName
          rw [if_neg h2, if_pos h1]
        simp [VariablesSorter.append, h2, h1, hc, List.filter_cons]
      · have hc : classifyName v.name = 0 := by
          unfold classifyName
          rw [if_neg h2, if_neg h1]
        simp [VariablesSorter.append, h2, h1, hc, List.filter_cons]

theorem filter_orderedInsert_nameLe (a : VarEntry) (n : Str) :
    ∀ l : List VarEntry,
      (List.orderedInsert nameLe a l).filter (fun v => decide (v.name = n)) =
        (if a.name = n then
          a :: l.filter (fun v => decide (v.name = n))
         else l.filter (fun v => decide (v.name = n))) := by
  intro l
  induction l with
  | nil =>
    by_cases h : a.name = n <;>
      simp [List.orderedInsert, List.filter_cons, h]
  | cons b l ih =>
    simp only [List.orderedInsert]
    by_cases hr : nameLe a b
    · rw [if_pos hr]
      by_cases ha : a.name = n <;> by_cases hb : b.name = n <;>
        simp [List.filter_cons, ha, hb]
    · rw [if_neg hr]
      by_cases hb : b.name = n
      · by_cases ha : a.name = n
        · exact absurd (show nameLe a b by
            show a.name ≤ b.name
            rw [ha, hb]) hr
        · simp [List.filter_cons, hb, ha, ih]
      · by_cases ha : a.name = n <;> simp [List.filter_cons, hb, ha, ih]

theorem filter_sortByName (n : Str) :
    ∀ l : List VarEntry,
      (sortByName l).filter (fun v => decide (v.name = n)) =
        l.filter (fun v => decide (v.name = n)) := by
  intro l
  induction l with
  | nil => rfl
  | cons a l ih =>
    show (List.orderedInsert nameLe a (sortByName l)).filter _ = _
    rw [filter_orderedInsert_nameLe a n (sortByName l)]
    by_cases h : a.name = n
    · rw [if_pos h, ih]
      simp [List.filter_cons, h]
    · rw [if_neg h, ih]
      simp [List.filter_cons, h]

theorem sortByName_pairwise (l : List VarEntry) :
    List.Pairwise nameLe (sortByName l) :=
  @List.sorted_insertionSort VarEntry nameLe _
    ⟨fun a b => le_total a.name b.name⟩
    ⟨fun _ _ _ hab hbc => le_trans hab hbc⟩ l

theorem filter_name_of_filter_class (vs : List VarEntry) (n : Str) (i : Nat) :
    (vs.filter (fun v => decide (classifyName v.name = i))).filter
        (fun v => decide (v.name = n)) =
      (if classifyName n = i then vs.filter (fun v => decide (v.name = n))
       else []) := by
  rw [List.filter_filter]
  by_cases h : classifyName n = i
  · rw [if_pos h]
    apply List.filter_congr
    intro v _
    by_cases hv : v.name = n
    · simp [hv, h]
    · simp [hv]
  · rw [if_neg h,
      show ([] : List VarEntry) = vs.filter (fun _ => false) by simp]
    apply List.filter_congr
    intro v _
    by_cases hv : v.name = n
    · simp [hv, h]
    · simp [hv]

/-- C10: every variables response lists the variables as four consecutive
groups — plain names, single-underscore names, double-underscore
non-dunder names, dunder names — each group being the stable ascending
name-sort of that group's subsequence; equal names keep their input order,
so no other reordering occurs. -/
theorem variables_sorted_four_groups (vs : List VarEntry) :
    (buildSorter vs).get_sorted_variables =
      sortByName (vs.filter (fun v => decide (classifyName v.name = 0))) ++
      sortByName (vs.filter (fun v => decide (classifyName v.name = 1))) ++
      sortByName (vs.filter (fun v => decide (classifyName v.name = 2))) ++
      sortByName (vs.filter (fun v => decide (classifyName v.name = 3))) ∧
    (∀ i : Nat, List.Pairwise nameLe
      (sortByName (vs.filter (fun v => decide (classifyName v.name = i))))) ∧
    (∀ n : Str,
      (buildSorter vs).get_sorted_variables.filter
          (fun v => decide (v.name = n)) =
        vs.filter (fun v => decide (v.name = n))) := by
  have hb := buildSorter_foldl vs VariablesSorter.init
  have hout : (buildSorter vs).get_sorted_variables =
      sortByName (vs.filter (fun v => decide (classifyName v.name = 0))) ++
      sortByName (vs.filter (fun v => decide (classifyName v.name = 1))) ++
      sortByName (vs.filter (fun v => decide (classifyName v.name = 2))) ++
      sortByName (vs.filter (fun v => decide (classifyName v.name = 3))) := by
    unfold buildSorter
    rw [hb]
    simp [VariablesSorter.get_sorted_variables, VariablesSorter.init]
  refine ⟨hout, fun i => sortByName_pairwise _, ?_⟩
  intro n
  rw [hout, List.filter_append, List.filter_append, List.filter_append,
    filter_sortByName, filter_sortByName, filter_sortByName, filter_sortByName,
    filter_name_of_filter_class, filter_name_of_filter_class,
    filter_name_of_filter_class, filter_name_of_filter_class]
  have hc : classifyName n = 0 ∨ classifyName n = 1 ∨ classifyName n = 2 ∨
      classifyName n = 3 := by
    unfold classifyName
    by_cases h2 : "__".data.isPrefixOf n = true
    · by_cases hd : endsWithL n "__".data = true
      · simp [h2, hd]
      · simp [h2, hd]
    · by_cases h1 : "_".data.isPrefixOf n = true
      · simp [h2, h1]
      · simp [h2, h1]
  rcases hc with h | h | h | h <;> simp [h]

/-! ## Breakpoint configuration (C4) -/

theorem IDMap.bp_fresh {m : IDMap BpKey} (hwf : m.WF) (hbk : m.BpKeyed)
    (path : Str) : dget m.pydevd_to_vscode (path, m.next_id) = none := by
  cases hk : dget m.pydevd_to_vscode (path, m.next_id) with
  | none => rfl
  | some v =>
    have hv : m.next_id = v := hbk _ _ hk
    have hfwd := (hwf.inv v (path, m.next_id)).mpr hk
    have := hwf.2.2.2 _ (mem_of_dget hfwd)
    omega

theorem IDMap.bpKeyed_addF {m : IDMap BpKey} (hbk : m.BpKeyed) (path : Str) :
    ((m.addF (fun i => (path, i))).2).BpKeyed := by
  intro k v hk
  rw [IDMap.addF] at hk
  rw [IDMap.add_dget_inv] at hk
  by_cases h : k = (path, m.next_id)
  · rw [if_pos h, Option.some.injEq] at hk
    rw [h, ← hk]
  · rw [if_neg h] at hk
    exact hbk _ _ hk

theorem IDMap.bpKeyed_removeMatching {m : IDMap BpKey} (hwf : m.WF)
    (hbk : m.BpKeyed) (P : BpKey → Bool) :
    (m.removeMatching P).BpKeyed := by
  intro k v hk
  obtain ⟨_, _, rinv, _⟩ := IDMap.removeMatching_spec m P hwf
  rw [rinv k] at hk
  by_cases h : P k = true
  · rw [if_pos h] at hk
    cases hk
  · rw [if_neg h] at hk
    exact hbk _ _ hk

theorem addFold_spec (path : Str) :
    ∀ (specs : List BpSpec) (m : IDMap BpKey), m.WF → m.BpKeyed →
      ((specs.foldl (fun mm _ => (mm.addF (fun i => (path, i))).2) m).WF ∧
       (specs.foldl (fun mm _ => (mm.addF (fun i => (path, i))).2) m).BpKeyed ∧
       (specs.foldl (fun mm _ => (mm.addF (fun i => (path, i))).2) m).next_id =
         m.next_id + specs.length ∧
       (∀ k : BpKey,
         dget (specs.foldl (fun mm _ => (mm.addF (fun i => (path, i))).2)
             m).pydevd_to_vscode k =
           (if k.1 = path ∧ m.next_id ≤ k.2 ∧ k.2 < m.next_id + specs.length
            then some k.2 else dget m.pydevd_to_vscode k))) := by
  intro specs
  induction specs with
  | nil =>
    intro m hwf hbk
    refine ⟨hwf, hbk, rfl, ?_⟩
    intro k
    have hng : ¬(k.1 = path ∧ m.next_id ≤ k.2 ∧
        k.2 < m.next_id + ([] : List BpSpec).length) := by
      intro hc
      obtain ⟨_, h1, h2⟩ := hc
      simp only [List.length_nil, Nat.add_zero] at h2
      omega
    rw [if_neg hng]
    rfl
  | cons spec specs ih =>
    intro m hwf hbk
    have hfresh : dget m.pydevd_to_vscode (path, m.next_id) = none :=
      IDMap.bp_fresh hwf hbk path
    have hwf' : ((m.addF (fun i => (path, i))).2).WF := IDMap.add_wf hwf hfresh
    have hbk' : ((m.addF (fun i => (path, i))).2).BpKeyed :=
      IDMap.bpKeyed_addF hbk path
    obtain ⟨rwf, rbk, rnid, rchar⟩ := ih _ hwf' hbk'
    simp only [List.foldl_cons]
    refine ⟨rwf, rbk, ?_, ?_⟩
    · rw [rnid]
      show m.next_id + 1 + specs.length = m.next_id + (specs.length + 1)
      omega
    · intro k
      rw [rchar k]
      have hnid : (m.addF (fun i => (path, i))).2.next_id = m.next_id + 1 := rfl
      rw [hnid]
      by_cases hin : k.1 = path ∧ m.next_id + 1 ≤ k.2 ∧
          k.2 < m.next_id + 1 + specs.length
      · obtain ⟨hp, h1, h2⟩ := hin
        rw [if_pos ⟨hp, h1, h2⟩,
          if_pos ⟨hp, by omega, by simp only [List.length_cons]; omega⟩]
      · rw [if_neg hin]
        have haddi : dget (m.addF (fun i => (path, i))).2.pydevd_to_vscode k =
            (if k = (path, m.next_id) then some m.next_id
             else dget m.pydevd_to_vscode k) := IDMap.add_dget_inv m _ k
        by_cases hk : k = (path, m.next_id)
        · have hk2 : k.2 = m.next_id := by rw [hk]
          rw [haddi, if_pos hk,
            if_pos ⟨by rw [hk], by omega, by simp only [List.length_cons]; omega⟩]
          rw [hk]
        · have hng : ¬(k.1 = path ∧ m.next_id ≤ k.2 ∧
              k.2 < m.next_id + (spec :: specs).length) := by
            intro hc
            obtain ⟨hp, h1, h2⟩ := hc
            simp only [List.length_cons] at h2
            rcases Nat.eq_or_lt_of_le h1 with h | h
            · exact hk (Prod.ext hp h.symm)
            · exact hin ⟨hp, by omega, by omega⟩
          rw [haddi, if_neg hk, if_neg hng]

theorem removeBpFold_decomp (bt path : Str) :
    ∀ (ps : List (BpKey × Nat)) (m : IDMap BpKey) (msgs : List PydMsg),
      ps.foldl (fun acc p =>
        if p.1.1 = path then
          (acc.1.removeState (some p.1) (some p.2),
           acc.2 ++ [PydMsg.removeBreak
             (bt ++ '\t' :: path ++ '\t' :: natDigits p.2)])
        else acc) (m, msgs) =
      (ps.foldl (fun acc p =>
         if (fun k : BpKey => decide (k.1 = path)) p.1 then
           acc.removeState (some p.1) (some p.2) else acc) m,
       msgs ++ (ps.filter (fun p => decide (p.1.1 = path))).map
         (fun p => PydMsg.removeBreak
           (bt ++ '\t' :: path ++ '\t' :: natDigits p.2))) := by
  intro ps
  induction ps with
  | nil =>
    intro m msgs
    simp
  | cons p ps ih =>
    intro m msgs
    simp only [List.foldl_cons, List.filter_cons]
    by_cases h : p.1.1 = path
    · rw [if_pos h, if_pos (decide_eq_true h), if_pos (decide_eq_true h), ih]
      simp [List.append_assoc]
    · rw [if_neg h, if_neg (fun hc => h (of_decide_eq_true hc)),
        if_neg (fun hc => h (of_decide_eq_true hc))]
      exact ih _ _

theorem addBpFold_decomp (bt path : Str) :
    ∀ (specs : List BpSpec) (m : IDMap BpKey) (msgs : List PydMsg)
      (bps : List BpOut),
      specs.foldl (fun acc spec =>
        let (vsc_bpid, m') := acc.1.addF (fun i => (path, i))
        (m', acc.2.1 ++ [PydMsg.setBreak (setBreakMsg bt path vsc_bpid spec)],
         acc.2.2 ++ [⟨vsc_bpid, true, spec.line⟩])) (m, msgs, bps) =
      (specs.foldl (fun mm _ => (mm.addF (fun i => (path, i))).2) m,
       msgs ++ (specs.zip (List.range' m.next_id specs.length)).map
         (fun q => PydMsg.setBreak (setBreakMsg bt path q.2 q.1)),
       bps ++ (specs.zip (List.range' m.next_id specs.length)).map
         (fun q => BpOut.mk q.2 true q.1.line)) := by
  intro specs
  induction specs with
  | nil =>
    intro m msgs bps
    simp
  | cons spec specs ih =>
    intro m msgs bps
    simp only [List.foldl_cons, List.length_cons, List.range'_succ,
      List.zip_cons_cons, List.map_cons]
    rw [ih]
    simp [List.append_assoc, IDMap.addF, IDMap.add]

theorem on_setBreakpoints_decomp (opts : DebugOptions) (m : IDMap BpKey)
    (path : Str) (specs : List BpSpec) :
    on_setBreakpoints opts m path specs =
      (specs.foldl (fun mm _ => (mm.addF (fun i => (path, i))).2)
         (m.removeMatching (fun k => decide (k.1 = path))),
       (m.pairs.filter (fun p => decide (p.1.1 = path))).map
         (fun p => PydMsg.removeBreak (breakpointKind opts path ++
           '\t' :: path ++ '\t' :: natDigits p.2)) ++
       (specs.zip (List.range'
           (m.removeMatching (fun k => decide (k.1 = path))).next_id
           specs.length)).map
         (fun q => PydMsg.setBreak
           (setBreakMsg (breakpointKind opts path) path q.2 q.1)),
       (specs.zip (List.range'
           (m.removeMatching (fun k => decide (k.1 = path))).next_id
           specs.length)).map
         (fun q => BpOut.mk q.2 true q.1.line)) := by
  unfold on_setBreakpoints removeBpPhase addBpPhase IDMap.removeMatching
    IDMap.pairs
  dsimp only
  rw [removeBpFold_decomp, addBpFold_decomp]
  simp

theorem setBreakpoints_call_spec (opts : DebugOptions) (m : IDMap BpKey)
    (path : Str) (specs : List BpSpec) (hwf : m.WF) (hbk : m.BpKeyed) :
    ((on_setBreakpoints opts m path specs).1.WF ∧
     (on_setBreakpoints opts m path specs).1.BpKeyed ∧
     (on_setBreakpoints opts m path specs).1.next_id =
       m.next_id + specs.length ∧
     (∀ k : BpKey, dget (on_setBreakpoints opts m path
         specs).1.pydevd_to_vscode k =
       (if k.1 = path ∧ m.next_id ≤ k.2 ∧ k.2 < m.next_id + specs.length
        then some k.2
        else if k.1 = path then none else dget m.pydevd_to_vscode k)) ∧
     (on_setBreakpoints opts m path specs).2.1 =
       (m.pairs.filter (fun p => decide (p.1.1 = path))).map
         (fun p => PydMsg.removeBreak (breakpointKind opts path ++
           '\t' :: path ++ '\t' :: natDigits p.2)) ++
       (specs.zip (List.range' m.next_id specs.length)).map
         (fun q => PydMsg.setBreak
           (setBreakMsg (breakpointKind opts path) path q.2 q.1)) ∧
     (on_setBreakpoints opts m path specs).2.2 =
       (specs.zip (List.range' m.next_id specs.length)).map
         (fun q => BpOut.mk q.2 true q.1.line)) := by
  obtain ⟨rwf, rnid, rinv, rfwd⟩ :=
    IDMap.removeMatching_spec m (fun k => decide (k.1 = path)) hwf
  have rbk : (m.removeMatching (fun k => decide (k.1 = path))).BpKeyed :=
    IDMap.bpKeyed_removeMatching hwf hbk _
  obtain ⟨awf, abk, anid, achar⟩ :=
    addFold_spec path specs (m.removeMatching (fun k => decide (k.1 = path)))
      rwf rbk
  rw [on_setBreakpoints_decomp, rnid]
  refine ⟨awf, abk, by rw [anid, rnid], ?_, rfl, rfl⟩
  intro k
  rw [achar k, rnid]
  by_cases hin : k.1 = path ∧ m.next_id ≤ k.2 ∧ k.2 < m.next_id + specs.length
  · rw [if_pos hin, if_pos hin]
  · rw [if_neg hin, if_neg hin, rinv k]
    by_cases hp : k.1 = path
    · rw [if_pos (decide_eq_true hp), if_pos hp]
    · rw [if_neg (fun hc => hp (of_decide_eq_true hc)), if_neg hp]

/-- C4: calling `on_setBreakpoints` for one source path with specs `A` and
then with specs `B` leaves exactly one registered breakpoint per element of
`B` — its key `(path, id)` carrying the freshly allocated ID — and none
originating from `A`; no other entry for the path survives; and the second
call's outgoing messages are a remove command for every breakpoint
registered for the path at its start, followed by one set command per spec
of `B` in the order given. -/
theorem setBreakpoints_full_replace (opts : DebugOptions) (m0 : IDMap BpKey)
    (path : Str) (A B : List BpSpec) (hwf : m0.WF) (hbk : m0.BpKeyed) :
    ((on_setBreakpoints opts (on_setBreakpoints opts m0 path A).1 path
        B).2.2.length = B.length) ∧
    (∀ bp ∈ (on_setBreakpoints opts (on_setBreakpoints opts m0 path A).1 path
        B).2.2,
      dget (on_setBreakpoints opts (on_setBreakpoints opts m0 path A).1 path
          B).1.pydevd_to_vscode (path, bp.id) = some bp.id ∧
        bp.verified = true) ∧
    (∀ bp ∈ (on_setBreakpoints opts m0 path A).2.2,
      dget (on_setBreakpoints opts (on_setBreakpoints opts m0 path A).1 path
          B).1.pydevd_to_vscode (path, bp.id) = none) ∧
    (∀ (k : BpKey) (v : Nat), k.1 = path →
      dget (on_setBreakpoints opts (on_setBreakpoints opts m0 path A).1 path
          B).1.pydevd_to_vscode k = some v →
      v ∈ (on_setBreakpoints opts (on_setBreakpoints opts m0 path A).1 path
          B).2.2.map BpOut.id) ∧
    ((on_setBreakpoints opts (on_setBreakpoints opts m0 path A).1 path
        B).2.1 =
      ((on_setBreakpoints opts m0 path A).1.pairs.filter
          (fun p => decide (p.1.1 = path))).map
        (fun p => PydMsg.removeBreak (breakpointKind opts path ++
          '\t' :: path ++ '\t' :: natDigits p.2)) ++
      (B.zip (List.range' (on_setBreakpoints opts m0 path A).1.next_id
          B.length)).map
        (fun q => PydMsg.setBreak
          (setBreakMsg (breakpointKind opts path) path q.2 q.1))) ∧
    ((on_setBreakpoints opts (on_setBreakpoints opts m0 path A).1 path
        B).2.2 =
      (B.zip (List.range' (on_setBreakpoints opts m0 path A).1.next_id
          B.length)).map (fun q => BpOut.mk q.2 true q.1.line)) := by
  obtain ⟨wf1, bk1, nid1, char1, msgs1, bps1⟩ :=
    setBreakpoints_call_spec opts m0 path A hwf hbk
  obtain ⟨wf2, bk2, nid2, char2, msgs2, bps2⟩ :=
    setBreakpoints_call_spec opts (on_setBreakpoints opts m0 path A).1 path B
      wf1 bk1
  refine ⟨?_, ?_, ?_, ?_, msgs2, bps2⟩
  · rw [bps2]
    simp [List.length_zip, List.length_range']
  · intro bp hbp
    rw [bps2] at hbp
    rcases List.mem_map.mp hbp with ⟨q, hq, hbpq⟩
    have hid : q.2 ∈ List.range'
        (on_setBreakpoints opts m0 path A).1.next_id B.length :=
      (List.of_mem_zip hq).2
    rw [List.mem_range'_1] at hid
    have hbpid : bp.id = q.2 := by rw [← hbpq]
    have hbpv : bp.verified = true := by rw [← hbpq]
    refine ⟨?_, hbpv⟩
    rw [char2 (path, bp.id),
      if_pos ⟨rfl, by simpa [hbpid] using hid.1, by simpa [hbpid] using hid.2⟩]
  · intro bp hbp
    rw [bps1] at hbp
    rcases List.mem_map.mp hbp with ⟨q, hq, hbpq⟩
    have hid : q.2 ∈ List.range' m0.next_id A.length :=
      (List.of_mem_zip hq).2
    rw [List.mem_range'_1] at hid
    have hbpid : bp.id = q.2 := by rw [← hbpq]
    have hlt : bp.id < (on_setBreakpoints opts m0 path A).1.next_id := by
      rw [nid1, hbpid]
      exact hid.2
    rw [char2 (path, bp.id), if_neg (fun hc => by
        have := hc.2.1
        omega),
      if_pos rfl]
  · intro k v hkp hkv
    rw [char2 k] at hkv
    by_cases hin : k.1 = path ∧
        (on_setBreakpoints opts m0 path A).1.next_id ≤ k.2 ∧
        k.2 < (on_setBreakpoints opts m0 path A).1.next_id + B.length
    · rw [if_pos hin, Option.some.injEq] at hkv
      rw [bps2, List.map_map]
      have hmap : (List.map (BpOut.id ∘ fun q => BpOut.mk q.2 true q.1.line)
          (B.zip (List.range' (on_setBreakpoints opts m0 path A).1.next_id
            B.length))) =
          List.map Prod.snd
            (B.zip (List.range' (on_setBreakpoints opts m0 path A).1.next_id
              B.length)) := by
        apply List.map_congr_left
        intro q _
        rfl
      rw [hmap, List.map_snd_zip _ _ (by rw [List.length_range'])]
      rw [List.mem_range'_1]
      exact ⟨by omega, by
        have := hin.2.2
        omega⟩
    · rw [if_neg hin, if_pos hkp] at hkv
      cases hkv

/-- Witness for C4 at a concrete pair of spec lists. -/
theorem setBreakpoints_full_replace_witness :
    (IDMap.empty BpKey).WF ∧ (IDMap.empty BpKey).BpKeyed ∧
    (    ((on_setBreakpoints (DebugOptions.mk false false) (on_setBreakpoints (DebugOptions.mk false false) (IDMap.empty BpKey) "/x.py".data [BpSpec.mk 1 none none []]).1 "/x.py".data
        [BpSpec.mk 2 none none [], BpSpec.mk 3 none none []]).2.2.length = [BpSpec.mk 2 none none [], BpSpec.mk 3 none none []].length) ∧
    (∀ bp ∈ (on_setBreakpoints (DebugOptions.mk false false) (on_setBreakpoints (DebugOptions.mk false false) (IDMap.empty BpKey) "/x.py".data [BpSpec.mk 1 none none []]).1 "/x.py".data
        [BpSpec.mk 2 none none [], BpSpec.mk 3 none none []]).2.2,
      dget (on_setBreakpoints (DebugOptions.mk false false) (on_setBreakpoints (DebugOptions.mk false false) (IDMap.empty BpKey) "/x.py".data [BpSpec.mk 1 none none []]).1 "/x.py".data
          [BpSpec.mk 2 none none [], BpSpec.mk 3 none none []]).1.pydevd_to_vscode ("/x.py".data, bp.id) = some bp.id ∧
        bp.verified = true) ∧
    (∀ bp ∈ (on_setBreakpoints (DebugOptions.mk false false) (IDMap.empty BpKey) "/x.py".data [BpSpec.mk 1 none none []]).2.2,
      dget (on_setBreakpoints (DebugOptions.mk false false) (on_setBreakpoints (DebugOptions.mk false false) (IDMap.empty BpKey) "/x.py".data [BpSpec.mk 1 none none []]).1 "/x.py".data
          [BpSpec.mk 2 none none [], BpSpec.mk 3 none none []]).1.pydevd_to_vscode ("/x.py".data, bp.id) = none) ∧
    (∀ (k : BpKey) (v : Nat), k.1 = "/x.py".data →
      dget (on_setBreakpoints (DebugOptions.mk false false) (on_setBreakpoints (DebugOptions.mk false false) (IDMap.empty BpKey) "/x.py".data [BpSpec.mk 1 none none []]).1 "/x.py".data
          [BpSpec.mk 2 none none [], BpSpec.mk 3 none none []]).1.pydevd_to_vscode k = some v →
      v ∈ (on_setBreakpoints (DebugOptions.mk false false) (on_setBreakpoints (DebugOptions.mk false false) (IDMap.empty BpKey) "/x.py".data [BpSpec.mk 1 none none []]).1 "/x.py".data
          [BpSpec.mk 2 none none [], BpSpec.mk 3 none none []]).2.2.map BpOut.id) ∧
    ((on_setBreakpoints (DebugOptions.mk false false) (on_setBreakpoints (DebugOptions.mk false false) (IDMap.empty BpKey) "/x.py".data [BpSpec.mk 1 none none []]).1 "/x.py".data
        [BpSpec.mk 2 none none [], BpSpec.mk 3 none none []]).2.1 =
      ((on_setBreakpoints (DebugOptions.mk false false) (IDMap.empty BpKey) "/x.py".data [BpSpec.mk 1 none none []]).1.pairs.filter
          (fun p => decide (p.1.1 = "/x.py".data))).map
        (fun p => PydMsg.removeBreak (breakpointKind (DebugOptions.mk false false) "/x.py".data ++
          '\t' :: "/x.py".data ++ '\t' :: natDigits p.2)) ++
      ([BpSpec.mk 2 none none [], BpSpec.mk 3 none none []].zip (List.range' (on_setBreakpoints (DebugOptions.mk false false) (IDMap.empty BpKey) "/x.py".data [BpSpec.mk 1 none none []]).1.next_id
          [BpSpec.mk 2 none none [], BpSpec.mk 3 none none []].length)).map
        (fun q => PydMsg.setBreak
          (setBreakMsg (breakpointKind (DebugOptions.mk false false) "/x.py".data) "/x.py".data q.2 q.1))) ∧
    ((on_setBreakpoints (DebugOptions.mk false false) (on_setBreakpoints (DebugOptions.mk false false) (IDMap.empty BpKey) "/x.py".data [BpSpec.mk 1 none none []]).1 "/x.py".data
        [BpSpec.mk 2 none none [], BpSpec.mk 3 none none []]).2.2 =
      ([BpSpec.mk 2 none none [], BpSpec.mk 3 none none []].zip (List.range' (on_setBreakpoints (DebugOptions.mk false false) (IDMap.empty BpKey) "/x.py".data [BpSpec.mk 1 none none []]).1.next_id
          [BpSpec.mk 2 none none [], BpSpec.mk 3 none none []].length)).map (fun q => BpOut.mk q.2 true q.1.line))) :=
  ⟨IDMap.wf_empty BpKey, fun _ _ h => Option.noConfusion h,
   setBreakpoints_full_replace (DebugOptions.mk false false)
     (IDMap.empty BpKey) "/x.py".data [BpSpec.mk 1 none none []]
     [BpSpec.mk 2 none none [], BpSpec.mk 3 none none []]
     (IDMap.wf_empty BpKey) (fun _ _ h => Option.noConfusion h)⟩
